import Mathlib

/-!
Verification of the job orchestration and exclusive model residency manager
of the ccbell-sound-generator backend.

The development shallowly embeds the Python code of
`backend/app/services/model_loader.py`, `backend/app/services/audio.py`,
`backend/app/api/routes.py` and `backend/app/api/websocket.py`.

Modelling conventions:
* Python `dict`s become association lists (`AList`): assignment to an
  existing key updates the first (unique) binding in place, assignment to a
  fresh key appends, `del` removes the first binding.  This matches CPython
  dict ordering semantics for the operations the code performs.
* Progress fractions (Python floats such as 0.05, 0.1, 0.3, 1.0) become
  rationals; every float literal the code uses is exactly representable and
  only ever compared for order and equality with 1.0.
* External effectful calls (`get_pretrained_model`, `model.to(device)`,
  `torch` import, `generate_diffusion_cond`, tensor post-processing,
  `torchaudio.save`) are parameters of the embedding: each is an
  `Except String _` value describing whether the call returns or raises,
  and with what.
* `asyncio` concurrency: a coroutine runs atomically between genuine yield
  points (awaiting an `asyncio.Lock`, `run_in_executor`, awaiting a
  websocket send inside a progress callback).  Traces record the states
  observable at those yield points, plus the final state.
-/

set_option linter.unusedVariables false
set_option linter.unreachableTactic false
set_option linter.unusedTactic false

namespace CCBell

/-- Association list keyed by strings, used to embed Python dicts. -/
abbrev AList (α : Type) := List (String × α)

/-- Lookup of a key in a dict (first binding wins). -/
def alookup {α : Type} : AList α → String → Option α
  | [], _ => none
  | (k, v) :: t, key => if k = key then some v else alookup t key

/-- Dict assignment `d[key] = v`: update the first binding in place when the
key is present, append otherwise. -/
def aset {α : Type} : AList α → String → α → AList α
  | [], key, v => [(key, v)]
  | (k, w) :: t, key, v => if k = key then (key, v) :: t else (k, w) :: aset t key v

/-- Dict deletion `del d[key]`: remove the first binding for the key. -/
def aremove {α : Type} : AList α → String → AList α
  | [], _ => []
  | (k, w) :: t, key => if k = key then t else (k, w) :: aremove t key

/-- Keys of a dict, in insertion order (`list(d.keys())`). -/
def akeys {α : Type} (l : AList α) : List String := l.map Prod.fst

@[simp] theorem alookup_nil {α : Type} (key : String) : alookup ([] : AList α) key = none := rfl

@[simp] theorem alookup_cons {α : Type} (k : String) (v : α) (t : AList α) (key : String) :
    alookup ((k, v) :: t) key = if k = key then some v else alookup t key := rfl

@[simp] theorem aset_nil {α : Type} (key : String) (v : α) :
    aset ([] : AList α) key v = [(key, v)] := rfl

@[simp] theorem aset_cons {α : Type} (k : String) (w : α) (t : AList α) (key : String) (v : α) :
    aset ((k, w) :: t) key v = if k = key then (key, v) :: t else (k, w) :: aset t key v := rfl

theorem alookup_aset_self {α : Type} (l : AList α) (key : String) (v : α) :
    alookup (aset l key v) key = some v := by
  induction l with
  | nil => simp [aset]
  | cons p t ih =>
    obtain ⟨k, w⟩ := p
    by_cases h : k = key <;> simp [aset, h, ih]

theorem alookup_aset_ne {α : Type} (l : AList α) (key key' : String) (v : α)
    (h : key ≠ key') : alookup (aset l key v) key' = alookup l key' := by
  induction l with
  | nil => simp [aset, h]
  | cons p t ih =>
    obtain ⟨k, w⟩ := p
    by_cases hk : k = key
    · subst hk; simp [aset, h]
    · simp [aset, hk, ih]

theorem alookup_eq_none_of_not_mem_keys {α : Type} (l : AList α) (key : String)
    (h : key ∉ akeys l) : alookup l key = none := by
  induction l with
  | nil => rfl
  | cons p t ih =>
    obtain ⟨k, w⟩ := p
    simp only [akeys, List.map_cons, List.mem_cons, not_or] at h
    have hk : k ≠ key := fun hc => h.1 hc.symm
    simp only [alookup_cons, if_neg hk]
    exact ih (by simpa [akeys] using h.2)

theorem alookup_aremove_self {α : Type} (l : AList α) (key : String)
    (hnd : (akeys l).Nodup) : alookup (aremove l key) key = none := by
  induction l with
  | nil => simp [aremove]
  | cons p t ih =>
    obtain ⟨k, w⟩ := p
    simp only [akeys, List.map_cons, List.nodup_cons] at hnd
    by_cases h : k = key
    · subst h
      simp only [aremove, if_pos rfl]
      exact alookup_eq_none_of_not_mem_keys t k (by simpa [akeys] using hnd.1)
    · simp [aremove, h, ih hnd.2]

theorem alookup_aremove_ne {α : Type} (l : AList α) (key key' : String)
    (h : key ≠ key') : alookup (aremove l key) key' = alookup l key' := by
  induction l with
  | nil => simp [aremove]
  | cons p t ih =>
    obtain ⟨k, w⟩ := p
    by_cases hk : k = key
    · subst hk; simp [aremove, h]
    · simp [aremove, hk, ih]

/-! # ModelLoader (backend/app/services/model_loader.py)

The loader owns dictionaries `_models`, `_model_configs` (variant name ↦
opaque handle, both embedded as `Nat`), a `_current_model` pointer and a
fixed two-slot `_loading_states` dictionary.  Model handles and configs are
opaque; the external calls are supplied through `LoadEnv`. -/

/-- Slot status (the Literal type of `LoadingState.status`). -/
inductive SlotStatus
  | idle
  | loading
  | ready
  | error
deriving DecidableEq, Repr

/-- Embedding of the `LoadingState` dataclass (model_loader.py lines 81–88). -/
structure LoadingState where
  status : SlotStatus := SlotStatus.idle
  progress : Rat := 0
  stage : Option String := none
  error : Option String := none
deriving DecidableEq, Repr

/-- Embedding of the mutable state of a `ModelLoader` instance
(model_loader.py lines 100–109).  The `_loading_lock` and the device are
not part of the data state; the lock appears in the concurrency model
below. -/
structure LoaderState where
  models : AList Nat := []
  model_configs : AList Nat := []
  current_model : Option String := none
  loading_states : AList LoadingState :=
    [("small", LoadingState.mk SlotStatus.idle 0 none none),
     ("1.0", LoadingState.mk SlotStatus.idle 0 none none)]
deriving DecidableEq, Repr

/-- The loader state right after `ModelLoader.__init__`. -/
def initLoader : LoaderState := {}

/-- `ModelLoader.MODEL_REPOS` (model_loader.py lines 95–98). -/
def MODEL_REPOS : AList String :=
  [("small", "stabilityai/stable-audio-open-small"),
   ("1.0", "stabilityai/stable-audio-open-1.0")]

/-- Embedding of `ModelLoader._update_loading_state` (lines 159–174): the
slot is replaced by a freshly constructed `LoadingState` only when the key
is already present in `_loading_states`. -/
def update_loading_state (s : LoaderState) (model_id : String) (status : SlotStatus)
    (progress : Rat) (stage : Option String) (error : Option String) : LoaderState :=
  if (alookup s.loading_states model_id).isSome then
    { s with
      loading_states :=
        aset s.loading_states model_id (LoadingState.mk status progress stage error) }
  else s

/-- Embedding of `ModelLoader._unload_model_sync` (lines 352–379): remove
the handle and config, clear `_current_model` when it matches, reset the
slot to idle.  The gc / CUDA-cache calls have no data-state effect. -/
def unload_model_sync (s : LoaderState) (model_id : String) : LoaderState :=
  if (alookup s.models model_id).isNone then s
  else
    update_loading_state
      { s with
        models := aremove s.models model_id,
        model_configs := aremove s.model_configs model_id,
        current_model := if s.current_model = some model_id then none else s.current_model }
      model_id SlotStatus.idle 0 none none

/-- One unload per key of a snapshot of `list(self._models.keys())`,
recording the state after each unload. -/
def unload_steps : List String → LoaderState → List LoaderState
  | [], _ => []
  | k :: ks, s =>
    let s2 := unload_model_sync s k
    s2 :: unload_steps ks s2

/-- Embedding of `ModelLoader._unload_all_models_sync` (lines 343–346);
`_unload_all_models` (lines 338–341) performs the same state changes. -/
def unload_all_models_sync (s : LoaderState) : LoaderState :=
  (unload_steps (akeys s.models) s).getLastD s

/-- Store the loaded handle and config and point `_current_model` at the
variant (model_loader.py lines 245–248 and 316–319). -/
def store_model (s : LoaderState) (model_id : String) (m cfg : Nat) : LoaderState :=
  { s with
    models := aset s.models model_id m,
    model_configs := aset s.model_configs model_id cfg,
    current_model := some model_id }

@[simp] theorem store_loading_states (s : LoaderState) (model_id : String) (m cfg : Nat) :
    (store_model s model_id m cfg).loading_states = s.loading_states := rfl

/-- Outcomes of the external calls made by the load path. -/
structure LoadEnv where
  torch_available : Bool
  get_pretrained_model : String → Except String (Nat × Nat)
  to_device : Nat → Except String Nat

/-- Result of running `_load_model_sync`: the statement-level trace of the
loader state (starting with the initial state) and the number of
`get_pretrained_model` invocations performed. -/
structure SyncRun where
  trace : List LoaderState
  calls : Nat
  final : LoaderState
deriving Repr

/-- Embedding of `ModelLoader._load_model_sync` (lines 196–263).  Note the
order on lines 219–226: the target variant is marked `loading` (progress
0.1) BEFORE `_unload_all_models_sync` evicts the previous resident. -/
def load_model_sync (env : LoadEnv) (s : LoaderState) (model_id : String) : SyncRun :=
  if env.torch_available = false then
    let sE := update_loading_state s model_id SlotStatus.error 0 none
      (some "PyTorch is not installed. Cannot load models.")
    { trace := [s, sE], calls := 0, final := sE }
  else if (alookup MODEL_REPOS model_id).isNone then
    let sE := update_loading_state s model_id SlotStatus.error 0 none
      (some ("Unknown model ID: " ++ model_id))
    { trace := [s, sE], calls := 0, final := sE }
  else if (alookup s.models model_id).isSome then
    let sR := update_loading_state s model_id SlotStatus.ready 1 (some "complete") none
    { trace := [s, sR], calls := 0, final := sR }
  else
    let s1 := update_loading_state s model_id SlotStatus.loading (1/10) (some "initializing") none
    let evict := unload_steps (akeys s1.models) s1
    let s2 := evict.getLastD s1
    let s3 := update_loading_state s2 model_id SlotStatus.loading (2/10) (some "downloading") none
    let s4 := update_loading_state s3 model_id SlotStatus.loading (3/10) (some "loading_weights") none
    match env.get_pretrained_model ((alookup MODEL_REPOS model_id).getD "") with
    | Except.error e =>
        let sE := update_loading_state s4 model_id SlotStatus.error 0 none (some e)
        { trace := s :: s1 :: evict ++ [s3, s4, sE], calls := 1, final := sE }
    | Except.ok (m, cfg) =>
        let s5 := update_loading_state s4 model_id SlotStatus.loading (8/10)
          (some "moving_to_device") none
        match env.to_device m with
        | Except.error e =>
            let sE := update_loading_state s5 model_id SlotStatus.error 0 none (some e)
            { trace := s :: s1 :: evict ++ [s3, s4, s5, sE], calls := 1, final := sE }
        | Except.ok m2 =>
            let s6 := store_model s5 model_id m2 cfg
            let s7 := update_loading_state s6 model_id SlotStatus.ready 1 (some "complete") none
            { trace := s :: s1 :: evict ++ [s3, s4, s5, s6, s7], calls := 1, final := s7 }

/-- Result of running the async `load_model`: trace, number of
`get_pretrained_model` invocations, and the returned pair or raised
exception message. -/
structure AsyncRun where
  trace : List LoaderState
  calls : Nat
  result : Except String (Nat × Nat)
  final : LoaderState
deriving Repr

/-- Embedding of `ModelLoader.load_model` (lines 265–336).  Unlike the
sync path, this path raises on missing torch / unknown id, returns the
cached pair on a hit (lines 284–288), and evicts (line 291) BEFORE marking
the slot `loading` (line 294); it also skips the 0.2 "downloading" step. -/
def load_model (env : LoadEnv) (s : LoaderState) (model_id : String) : AsyncRun :=
  if env.torch_available = false then
    { trace := [s], calls := 0,
      result := Except.error "PyTorch is not installed. Cannot load models.", final := s }
  else if (alookup MODEL_REPOS model_id).isNone then
    { trace := [s], calls := 0, result := Except.error ("Unknown model ID: " ++ model_id),
      final := s }
  else if (alookup s.models model_id).isSome then
    let s1 := update_loading_state s model_id SlotStatus.ready 1 (some "complete") none
    { trace := [s, s1], calls := 0,
      result := Except.ok ((alookup s.models model_id).getD 0,
                           (alookup s.model_configs model_id).getD 0),
      final := s1 }
  else
    let evict := unload_steps (akeys s.models) s
    let s1 := evict.getLastD s
    let s2 := update_loading_state s1 model_id SlotStatus.loading (1/10) (some "initializing") none
    let s3 := update_loading_state s2 model_id SlotStatus.loading (3/10)
      (some "loading_weights") none
    match env.get_pretrained_model ((alookup MODEL_REPOS model_id).getD "") with
    | Except.error e =>
        let sE := update_loading_state s3 model_id SlotStatus.error 0 none (some e)
        { trace := s :: evict ++ [s2, s3, sE], calls := 1, result := Except.error e,
          final := sE }
    | Except.ok (m, cfg) =>
        let s4 := update_loading_state s3 model_id SlotStatus.loading (8/10)
          (some "moving_to_device") none
        match env.to_device m with
        | Except.error e =>
            let sE := update_loading_state s4 model_id SlotStatus.error 0 none (some e)
            { trace := s :: evict ++ [s2, s3, s4, sE], calls := 1, result := Except.error e,
              final := sE }
        | Except.ok m2 =>
            let s5 := store_model s4 model_id m2 cfg
            let s6 := update_loading_state s5 model_id SlotStatus.ready 1 (some "complete") none
            { trace := s :: evict ++ [s2, s3, s4, s5, s6], calls := 1,
              result := Except.ok (m2, cfg), final := s6 }

/-- Embedding of the `ModelLoadingStatus` response model
(core/models.py lines 153–160). -/
structure ModelLoadingStatus where
  model_id : String
  status : SlotStatus
  progress : Rat
  stage : Option String
  error : Option String
deriving DecidableEq, Repr

/-- Embedding of `ModelLoader.get_loading_status` (lines 142–153): the slot
is read with `dict.get(model_id, LoadingState())`, i.e. an unknown name
silently produces a default (idle) state. -/
def get_loading_status (s : LoaderState) (model_id : String) : ModelLoadingStatus :=
  let st := (alookup s.loading_states model_id).getD {}
  { model_id := model_id, status := st.status, progress := st.progress,
    stage := st.stage, error := st.error }

/-- Embedding of the route `GET /models/{model_id}/status`
(routes.py lines 57–63): unknown names get an HTTP 404, known names the
loader's status. -/
def get_model_status_route (s : LoaderState) (model_id : String) :
    Except Nat ModelLoadingStatus :=
  if model_id = "small" ∨ model_id = "1.0" then Except.ok (get_loading_status s model_id)
  else Except.error 404

/-- `ModelLoader.is_loading` (lines 134–136). -/
def is_loading (s : LoaderState) (model_id : String) : Bool :=
  ((alookup s.loading_states model_id).getD {}).status == SlotStatus.loading

/-- `ModelLoader.is_ready` (lines 138–140). -/
def is_ready (s : LoaderState) (model_id : String) : Bool :=
  ((alookup s.loading_states model_id).getD {}).status == SlotStatus.ready

/-- Number of slots whose status is `loading` or `ready`. -/
def residentCount (s : LoaderState) : Nat :=
  (s.loading_states.filter
    (fun q => q.2.status == SlotStatus.loading || q.2.status == SlotStatus.ready)).length

/-- Number of slots whose status is `ready`. -/
def readyCount (s : LoaderState) : Nat :=
  (s.loading_states.filter (fun q => q.2.status == SlotStatus.ready)).length

/-- Status of the slot of a given variant (default state for unknown keys,
mirroring `dict.get(model_id, LoadingState())`). -/
def slotStatusOf (s : LoaderState) (k : String) : SlotStatus :=
  ((alookup s.loading_states k).getD {}).status

/-- The fresh idle state `LoadingState()`. -/
def idleLS : LoadingState := LoadingState.mk SlotStatus.idle 0 none none

/-- Whether a status contributes to the residency count. -/
def statusCounts (st : SlotStatus) : Bool :=
  st == SlotStatus.loading || st == SlotStatus.ready

theorem residentCount_eq (s : LoaderState) (a b : LoadingState)
    (h : s.loading_states = [("small", a), ("1.0", b)]) :
    residentCount s = (if statusCounts a.status then 1 else 0) +
      (if statusCounts b.status then 1 else 0) := by
  obtain ⟨sa, pa, ga, ea⟩ := a
  obtain ⟨sb, pb, gb, eb⟩ := b
  simp only [residentCount, h]
  cases sa <;> cases sb <;> rfl

theorem readyCount_eq (s : LoaderState) (a b : LoadingState)
    (h : s.loading_states = [("small", a), ("1.0", b)]) :
    readyCount s = (if a.status == SlotStatus.ready then 1 else 0) +
      (if b.status == SlotStatus.ready then 1 else 0) := by
  obtain ⟨sa, pa, ga, ea⟩ := a
  obtain ⟨sb, pb, gb, eb⟩ := b
  simp only [readyCount, h]
  cases sa <;> cases sb <;> rfl

theorem update_loading_states_eq (s : LoaderState) (a b : LoadingState)
    (h : s.loading_states = [("small", a), ("1.0", b)]) (mid : String) (st : SlotStatus)
    (p : Rat) (sg e : Option String) :
    (update_loading_state s mid st p sg e).loading_states =
      [("small", if mid = "small" then LoadingState.mk st p sg e else a),
       ("1.0", if mid = "1.0" then LoadingState.mk st p sg e else b)] := by
  by_cases h1 : mid = "small"
  · subst h1; simp [update_loading_state, h, aset]
  · by_cases h2 : mid = "1.0"
    · subst h2
      simp [update_loading_state, h, aset, Ne.symm h1]
    · have h1s : ¬ ("small" = mid) := fun hc => h1 hc.symm
      have h2s : ¬ ("1.0" = mid) := fun hc => h2 hc.symm
      simp [update_loading_state, h, h1, h2, h1s, h2s]

@[simp] theorem update_models (s : LoaderState) (mid : String) (st : SlotStatus)
    (p : Rat) (sg e : Option String) :
    (update_loading_state s mid st p sg e).models = s.models := by
  unfold update_loading_state; split <;> rfl

@[simp] theorem update_model_configs (s : LoaderState) (mid : String) (st : SlotStatus)
    (p : Rat) (sg e : Option String) :
    (update_loading_state s mid st p sg e).model_configs = s.model_configs := by
  unfold update_loading_state; split <;> rfl

@[simp] theorem update_current_model (s : LoaderState) (mid : String) (st : SlotStatus)
    (p : Rat) (sg e : Option String) :
    (update_loading_state s mid st p sg e).current_model = s.current_model := by
  unfold update_loading_state; split <;> rfl

theorem unload_loading_states_eq (s : LoaderState) (a b : LoadingState)
    (h : s.loading_states = [("small", a), ("1.0", b)]) (k : String) :
    (unload_model_sync s k).loading_states =
      if (alookup s.models k).isSome then
        [("small", if k = "small" then idleLS else a),
         ("1.0", if k = "1.0" then idleLS else b)]
      else [("small", a), ("1.0", b)] := by
  unfold unload_model_sync
  cases ho : alookup s.models k with
  | none =>
      simp [ho, h]
  | some v =>
      simp only [ho, Option.isNone_some, Bool.false_eq_true, if_false, Option.isSome_some,
        if_true]
      rw [update_loading_states_eq _ a b (by simpa using h) k]
      simp [idleLS]

theorem unload_models_eq (s : LoaderState) (k : String) :
    (unload_model_sync s k).models =
      if (alookup s.models k).isNone then s.models else aremove s.models k := by
  unfold unload_model_sync
  cases ho : alookup s.models k with
  | none => simp [ho]
  | some v => simp [ho]

theorem small_ne_ten : ("small" : String) ≠ "1.0" := by decide

theorem getLastD_mem_cons {α : Type} (l : List α) (d : α) : l.getLastD d ∈ d :: l := by
  induction l generalizing d with
  | nil => simp
  | cons x xs ih =>
      rw [List.getLastD_cons]
      exact List.mem_cons_of_mem d (ih x)

theorem slotStatusOf_of_shape (s : LoaderState) (a b : LoadingState)
    (h : s.loading_states = [("small", a), ("1.0", b)]) (k : String)
    (hk : k = "small" ∨ k = "1.0") :
    slotStatusOf s k = if k = "small" then a.status else b.status := by
  rcases hk with rfl | rfl
  · simp [slotStatusOf, h, alookup]
  · simp [slotStatusOf, h, alookup, small_ne_ten]

theorem unload_steps_slots (ks : List String) (u : LoaderState) (a b : LoadingState)
    (h : u.loading_states = [("small", a), ("1.0", b)]) :
    ∀ t ∈ unload_steps ks u, ∃ a2 b2,
      t.loading_states = [("small", a2), ("1.0", b2)] ∧
      (a2 = a ∨ a2 = idleLS) ∧ (b2 = b ∨ b2 = idleLS) := by
  induction ks generalizing u a b with
  | nil => intro t ht; simp [unload_steps] at ht
  | cons k ks ih =>
      intro t ht
      have hstep : ∃ a2 b2,
          (unload_model_sync u k).loading_states = [("small", a2), ("1.0", b2)] ∧
          (a2 = a ∨ a2 = idleLS) ∧ (b2 = b ∨ b2 = idleLS) := by
        rw [unload_loading_states_eq u a b h k]
        by_cases hm : (alookup u.models k).isSome
        · refine ⟨(if k = "small" then idleLS else a), (if k = "1.0" then idleLS else b),
            by simp [hm], ?_, ?_⟩
          · by_cases h1 : k = "small" <;> simp [h1]
          · by_cases h2 : k = "1.0" <;> simp [h2]
        · exact ⟨a, b, by simp [hm], Or.inl rfl, Or.inl rfl⟩
      obtain ⟨a2, b2, hs2, hda, hdb⟩ := hstep
      simp only [unload_steps, List.mem_cons] at ht
      rcases ht with rfl | ht
      · exact ⟨a2, b2, hs2, hda, hdb⟩
      · obtain ⟨a3, b3, hs3, hda3, hdb3⟩ := ih (unload_model_sync u k) a2 b2 hs2 t ht
        refine ⟨a3, b3, hs3, ?_, ?_⟩
        · rcases hda3 with rfl | rfl
          · exact hda
          · exact Or.inr rfl
        · rcases hdb3 with rfl | rfl
          · exact hdb
          · exact Or.inr rfl

theorem unload_steps_models_nil (ks : List String) (u : LoaderState)
    (h : akeys u.models = ks) :
    ((unload_steps ks u).getLastD u).models = [] := by
  induction ks generalizing u with
  | nil =>
      have hnil : u.models = [] := by
        cases hm : u.models with
        | nil => rfl
        | cons p t => rw [hm] at h; simp [akeys] at h
      simp [unload_steps, hnil]
  | cons k ks ih =>
      cases hm : u.models with
      | nil => rw [hm] at h; simp [akeys] at h
      | cons p rest =>
          obtain ⟨k0, v⟩ := p
          rw [hm] at h
          simp only [akeys, List.map_cons, List.cons.injEq] at h
          obtain ⟨hk0, hrest⟩ := h
          subst hk0
          have hlook : alookup u.models k0 = some v := by rw [hm]; simp [alookup]
          have hmodels : (unload_model_sync u k0).models = rest := by
            rw [unload_models_eq, hlook]
            simp [hm, aremove]
          have hrec := ih (unload_model_sync u k0) (by rw [hmodels]; exact hrest)
          simp only [unload_steps]
          rw [List.getLastD_cons]
          exact hrec

theorem unload_steps_idle (ks : List String) (u : LoaderState) (a b : LoadingState)
    (h : u.loading_states = [("small", a), ("1.0", b)])
    (k : String) (hk : k = "small" ∨ k = "1.0")
    (hak : akeys u.models = ks) (hmem : (alookup u.models k).isSome) :
    slotStatusOf ((unload_steps ks u).getLastD u) k = SlotStatus.idle := by
  induction ks generalizing u a b with
  | nil =>
      have hnil : u.models = [] := by
        cases hm : u.models with
        | nil => rfl
        | cons p t => rw [hm] at hak; simp [akeys] at hak
      rw [hnil] at hmem
      simp [alookup] at hmem
  | cons k0 ks ih =>
      cases hm : u.models with
      | nil => rw [hm] at hak; simp [akeys] at hak
      | cons p rest =>
          obtain ⟨k1, v⟩ := p
          rw [hm] at hak
          simp only [akeys, List.map_cons, List.cons.injEq] at hak
          obtain ⟨hk1, hrest⟩ := hak
          subst hk1
          have hlook : alookup u.models k1 = some v := by rw [hm]; simp [alookup]
          have hmodels : (unload_model_sync u k1).models = rest := by
            rw [unload_models_eq, hlook]
            simp [hm, aremove]
          have hshape := unload_loading_states_eq u a b h k1
          rw [hlook] at hshape
          simp only [Option.isSome_some, if_true] at hshape
          simp only [unload_steps]
          rw [List.getLastD_cons]
          by_cases hkk : k = k1
          · -- the unload of k set the slot to idle; later steps keep it idle
            subst hkk
            have hidle : slotStatusOf (unload_model_sync u k) k = SlotStatus.idle := by
              rw [slotStatusOf_of_shape _ _ _ hshape k hk]
              rcases hk with rfl | rfl <;> simp [idleLS, small_ne_ten]
            have hfin := getLastD_mem_cons (unload_steps ks (unload_model_sync u k))
              (unload_model_sync u k)
            rcases List.mem_cons.mp hfin with heq | hmem2
            · rw [heq]; exact hidle
            · obtain ⟨a3, b3, hs3, hda3, hdb3⟩ :=
                unload_steps_slots ks (unload_model_sync u k) _ _ hshape _ hmem2
              rw [slotStatusOf_of_shape _ _ _ hs3 k hk]
              rw [slotStatusOf_of_shape _ _ _ hshape k hk] at hidle
              rcases hk with rfl | rfl
              · simp only [if_pos rfl] at hidle ⊢
                rcases hda3 with rfl | rfl
                · exact hidle
                · rfl
              · simp only [if_neg small_ne_ten.symm] at hidle ⊢
                rcases hdb3 with rfl | rfl
                · exact hidle
                · rfl
          · -- k untouched by this unload; recurse
            have hmem2 : (alookup (unload_model_sync u k1).models k).isSome := by
              rw [hmodels]
              have hne : k1 ≠ k := fun hc => hkk hc.symm
              have heq : alookup u.models k = alookup rest k := by
                rw [hm]; simp [alookup, hne]
              rw [← heq]; exact hmem
            exact ih (unload_model_sync u k1) _ _ hshape (by rw [hmodels]; exact hrest) hmem2

theorem getLastD_append_singleton {α : Type} (l : List α) (x d : α) :
    (l ++ [x]).getLastD d = x := by
  induction l generalizing d with
  | nil => rfl
  | cons y ys ih => rw [List.cons_append, List.getLastD_cons]; exact ih y

theorem readyCount_le_residentCount (s : LoaderState) (a b : LoadingState)
    (h : s.loading_states = [("small", a), ("1.0", b)]) :
    readyCount s ≤ residentCount s := by
  rw [readyCount_eq s a b h, residentCount_eq s a b h]
  cases ha : a.status <;> cases hb : b.status <;> simp [statusCounts, ha, hb]

theorem counts_le_one_of_other_quiet (t : LoaderState) (x y : LoadingState)
    (h : t.loading_states = [("small", x), ("1.0", y)])
    (hq : statusCounts x.status = false ∨ statusCounts y.status = false) :
    residentCount t ≤ 1 ∧ readyCount t ≤ 1 := by
  rw [residentCount_eq t x y h, readyCount_eq t x y h]
  rcases hq with hq | hq <;>
    cases hx : x.status <;> cases hy : y.status <;>
      simp_all [statusCounts]

theorem counts_update_nonactive (s : LoaderState) (a b : LoadingState)
    (h : s.loading_states = [("small", a), ("1.0", b)]) (mid : String) (st : SlotStatus)
    (hst : statusCounts st = false) (p : Rat) (sg e : Option String) :
    residentCount (update_loading_state s mid st p sg e) ≤ residentCount s ∧
    readyCount (update_loading_state s mid st p sg e) ≤ readyCount s := by
  have hsh := update_loading_states_eq s a b h mid st p sg e
  rw [residentCount_eq _ _ _ hsh, readyCount_eq _ _ _ hsh,
    residentCount_eq s a b h, readyCount_eq s a b h]
  by_cases h1 : mid = "small"
  · subst h1
    simp only [if_pos rfl, if_neg small_ne_ten]
    cases hx : st <;> cases ha : a.status <;> simp_all [statusCounts]
  · by_cases h2 : mid = "1.0"
    · subst h2
      simp only [if_neg (fun hc : ("1.0" : String) = "small" => small_ne_ten hc.symm),
        if_pos rfl]
      cases hx : st <;> cases hb : b.status <;> simp_all [statusCounts]
    · simp [h1, h2]

theorem counts_weaken_le (t s : LoaderState) (a b a2 b2 : LoadingState)
    (h : s.loading_states = [("small", a), ("1.0", b)])
    (ht : t.loading_states = [("small", a2), ("1.0", b2)])
    (hda : a2 = a ∨ a2 = idleLS) (hdb : b2 = b ∨ b2 = idleLS) :
    residentCount t ≤ residentCount s ∧ readyCount t ≤ readyCount s := by
  rw [residentCount_eq t a2 b2 ht, readyCount_eq t a2 b2 ht,
    residentCount_eq s a b h, readyCount_eq s a b h]
  rcases hda with rfl | rfl <;> rcases hdb with rfl | rfl <;>
    simp [statusCounts, idleLS]

theorem ten_ne_small : ("1.0" : String) ≠ "small" := fun hc => small_ne_ten hc.symm

theorem evict_shape (ks : List String) (s : LoaderState) (a b : LoadingState)
    (hshape : s.loading_states = [("small", a), ("1.0", b)]) :
    ∃ a3 b3, ((unload_steps ks s).getLastD s).loading_states
        = [("small", a3), ("1.0", b3)] ∧ (a3 = a ∨ a3 = idleLS) ∧ (b3 = b ∨ b3 = idleLS) := by
  rcases List.mem_cons.mp (getLastD_mem_cons (unload_steps ks s) s) with heq | hm
  · rw [heq]; exact ⟨a, b, hshape, Or.inl rfl, Or.inl rfl⟩
  · exact unload_steps_slots _ s a b hshape _ hm

theorem evict_slot_quiet (ks : List String) (s : LoaderState) (a b : LoadingState)
    (hshape : s.loading_states = [("small", a), ("1.0", b)])
    (k : String) (hk : k = "small" ∨ k = "1.0")
    (hak : akeys s.models = ks)
    (hkr : slotStatusOf s k = SlotStatus.ready → (alookup s.models k).isSome)
    (hknl : slotStatusOf s k ≠ SlotStatus.loading) :
    statusCounts (slotStatusOf ((unload_steps ks s).getLastD s) k) = false := by
  obtain ⟨a3, b3, hsh, hda, hdb⟩ := evict_shape ks s a b hshape
  have hcur := slotStatusOf_of_shape _ a3 b3 hsh k hk
  have horig := slotStatusOf_of_shape s a b hshape k hk
  by_cases hready : slotStatusOf s k = SlotStatus.ready
  · have hidle := unload_steps_idle ks s a b hshape k hk hak (hkr hready)
    rw [hidle]; rfl
  · rw [hcur]
    rcases hk with rfl | rfl
    · simp only [if_pos rfl] at horig ⊢
      rcases hda with rfl | rfl
      · rw [horig] at hready hknl
        cases has : a3.status
        · rfl
        · exact absurd has hknl
        · exact absurd has hready
        · rfl
      · rfl
    · simp only [if_neg ten_ne_small] at horig ⊢
      rcases hdb with rfl | rfl
      · rw [horig] at hready hknl
        cases hbs : b3.status
        · rfl
        · exact absurd hbs hknl
        · exact absurd hbs hready
        · rfl
      · rfl

theorem update_step_small (u : LoaderState) (x y : LoadingState)
    (hsh : u.loading_states = [("small", x), ("1.0", y)])
    (st : SlotStatus) (p : Rat) (sg e : Option String) :
    (update_loading_state u "small" st p sg e).loading_states
      = [("small", LoadingState.mk st p sg e), ("1.0", y)] := by
  rw [update_loading_states_eq u x y hsh]
  simp [small_ne_ten]

theorem update_step_ten (u : LoaderState) (x y : LoadingState)
    (hsh : u.loading_states = [("small", x), ("1.0", y)])
    (st : SlotStatus) (p : Rat) (sg e : Option String) :
    (update_loading_state u "1.0" st p sg e).loading_states
      = [("small", x), ("1.0", LoadingState.mk st p sg e)] := by
  rw [update_loading_states_eq u x y hsh]
  simp [ten_ne_small]

/-- Shared all-success external environment for concrete runs. -/
def okEnv : LoadEnv :=
  { torch_available := true,
    get_pretrained_model := fun _ => Except.ok (7, 8),
    to_device := fun m => Except.ok (m + 100) }

/-- Loader state with variant "small" resident and ready, reached by a
successful synchronous load from the initial state. -/
def loaderSmallReady : LoaderState := (load_model_sync okEnv initLoader "small").final

/-- C1, counterexample: starting from the reachable state in which "small"
is ready and resident, `_load_model_sync "1.0"` produces a trace state
(right after line 219 of model_loader.py marks "1.0" as loading, before
line 226 evicts "small") in which BOTH "small" is still ready and "1.0" is
loading, so the number of slots in {loading, ready} is 2 and eviction does
not precede the new variant entering the loading state. -/
theorem c1_single_residency_cex :
    1 < (load_model_sync okEnv loaderSmallReady "1.0").trace.length ∧
    residentCount ((load_model_sync okEnv loaderSmallReady "1.0").trace.getD 1 initLoader) = 2 ∧
    is_ready ((load_model_sync okEnv loaderSmallReady "1.0").trace.getD 1 initLoader) "small"
      = true ∧
    is_loading ((load_model_sync okEnv loaderSmallReady "1.0").trace.getD 1 initLoader) "1.0"
      = true := by
  decide

/-- Amended single-residency property: during `load_model` at most one
slot is in {loading, ready} at every statement boundary; during
`_load_model_sync` at most one slot is ever `ready`, and at completion at
most one slot is in {loading, ready}. -/
def SingleResidencyAmended (env : LoadEnv) (s : LoaderState) (mid : String) : Prop :=
  (∀ t ∈ (load_model env s mid).trace, residentCount t ≤ 1) ∧
  (∀ t ∈ (load_model_sync env s mid).trace, readyCount t ≤ 1) ∧
  residentCount (load_model_sync env s mid).final ≤ 1

/-- C1 (amended): single residency holds as claimed for `load_model` (the
async path evicts before marking the new variant loading, so at most one
slot is ever in {loading, ready} at every statement boundary); for
`_load_model_sync` at most one slot is ever `ready` at every statement
boundary and at most one slot is in {loading, ready} when the call
completes — but transiently inside `_load_model_sync` the new variant is
`loading` while the previous resident is still `ready`, because the
loading mark (line 219) precedes the eviction (line 226). -/
theorem c1_single_residency_amended (env : LoadEnv) (s : LoaderState) (a b : LoadingState)
    (mid : String)
    (hshape : s.loading_states = [("small", a), ("1.0", b)])
    (hA_ready : a.status = SlotStatus.ready → (alookup s.models "small").isSome)
    (hB_ready : b.status = SlotStatus.ready → (alookup s.models "1.0").isSome)
    (hA_mr : (alookup s.models "small").isSome → a.status = SlotStatus.ready)
    (hB_mr : (alookup s.models "1.0").isSome → b.status = SlotStatus.ready)
    (hA_nl : a.status ≠ SlotStatus.loading)
    (hB_nl : b.status ≠ SlotStatus.loading)
    (hrc : residentCount s ≤ 1) :
    SingleResidencyAmended env s mid := by
  unfold SingleResidencyAmended
  have hready_s : readyCount s ≤ 1 := le_trans (readyCount_le_residentCount s a b hshape) hrc
  by_cases ht : env.torch_available = false
  · refine ⟨?_, ?_, ?_⟩
    · intro t htm
      simp [load_model, ht] at htm
      rw [htm]; exact hrc
    · intro t htm
      simp [load_model_sync, ht] at htm
      rcases htm with rfl | rfl
      · exact hready_s
      · exact le_trans
          (counts_update_nonactive s a b hshape mid SlotStatus.error rfl 0 none _).2 hready_s
    · simp [load_model_sync, ht]
      exact le_trans
        (counts_update_nonactive s a b hshape mid SlotStatus.error rfl 0 none _).1 hrc
  · have ht2 : env.torch_available = true := by revert ht; cases env.torch_available <;> simp
    by_cases hrep : (alookup MODEL_REPOS mid).isNone
    · refine ⟨?_, ?_, ?_⟩
      · intro t htm
        simp [load_model, ht2, hrep] at htm
        rw [htm]; exact hrc
      · intro t htm
        simp [load_model_sync, ht2, hrep] at htm
        rcases htm with rfl | rfl
        · exact hready_s
        · exact le_trans
            (counts_update_nonactive s a b hshape mid SlotStatus.error rfl 0 none _).2 hready_s
      · simp [load_model_sync, ht2, hrep]
        exact le_trans
          (counts_update_nonactive s a b hshape mid SlotStatus.error rfl 0 none _).1 hrc
    · have hrep2 : (alookup MODEL_REPOS mid).isNone = false := by
        revert hrep; cases halo : (alookup MODEL_REPOS mid).isNone <;> simp
      have hmid : mid = "small" ∨ mid = "1.0" := by
        by_cases h1 : mid = "small"
        · exact Or.inl h1
        by_cases h2 : mid = "1.0"
        · exact Or.inr h2
        exfalso
        have h1s : ¬("small" = mid) := fun hc => h1 hc.symm
        have h2s : ¬("1.0" = mid) := fun hc => h2 hc.symm
        have hnone : alookup MODEL_REPOS mid = none := by
          simp [ MODEL_REPOS, alookup, h1s, h2s]
        exact hrep (by rw [hnone]; rfl)
      by_cases hcache : (alookup s.models mid).isSome
      · rcases hmid with rfl | rfl
        · have haR : a.status = SlotStatus.ready := hA_mr hcache
          have hqB : statusCounts b.status = false := by
            cases hbs : b.status
            · rfl
            · exact absurd hbs hB_nl
            · exfalso
              rw [residentCount_eq s a b hshape] at hrc
              simp [haR, hbs, statusCounts] at hrc
            · rfl
          have hsh1 := update_step_small s a b hshape SlotStatus.ready 1 (some "complete") none
          refine ⟨?_, ?_, ?_⟩
          · intro t htm
            simp [load_model, ht2, hrep2, hcache] at htm
            rcases htm with rfl | rfl
            · exact hrc
            · exact (counts_le_one_of_other_quiet _ _ _ hsh1 (Or.inr hqB)).1
          · intro t htm
            simp [load_model_sync, ht2, hrep2, hcache] at htm
            rcases htm with rfl | rfl
            · exact hready_s
            · exact (counts_le_one_of_other_quiet _ _ _ hsh1 (Or.inr hqB)).2
          · simp [load_model_sync, ht2, hrep2, hcache]
            exact (counts_le_one_of_other_quiet _ _ _ hsh1 (Or.inr hqB)).1
        · have hbR : b.status = SlotStatus.ready := hB_mr hcache
          have hqA : statusCounts a.status = false := by
            cases has : a.status
            · rfl
            · exact absurd has hA_nl
            · exfalso
              rw [residentCount_eq s a b hshape] at hrc
              simp [has, hbR, statusCounts] at hrc
            · rfl
          have hsh1 := update_step_ten s a b hshape SlotStatus.ready 1 (some "complete") none
          refine ⟨?_, ?_, ?_⟩
          · intro t htm
            simp [load_model, ht2, hrep2, hcache] at htm
            rcases htm with rfl | rfl
            · exact hrc
            · exact (counts_le_one_of_other_quiet _ _ _ hsh1 (Or.inl hqA)).1
          · intro t htm
            simp [load_model_sync, ht2, hrep2, hcache] at htm
            rcases htm with rfl | rfl
            · exact hready_s
            · exact (counts_le_one_of_other_quiet _ _ _ hsh1 (Or.inl hqA)).2
          · simp [load_model_sync, ht2, hrep2, hcache]
            exact (counts_le_one_of_other_quiet _ _ _ hsh1 (Or.inl hqA)).1
      · have hcache2 : (alookup s.models mid).isSome = false := by
          revert hcache; cases halo : (alookup s.models mid).isSome <;> simp
        rcases hmid with rfl | rfl
        · -- loading "small" while it is not cached
          obtain ⟨a3, b3, hufsh, hda, hdb⟩ := evict_shape (akeys s.models) s a b hshape
          have hqB3 : statusCounts b3.status = false := by
            have hkr : slotStatusOf s "1.0" = SlotStatus.ready →
                (alookup s.models "1.0").isSome := by
              rw [slotStatusOf_of_shape s a b hshape "1.0" (Or.inr rfl)]
              simp only [if_neg ten_ne_small]
              exact hB_ready
            have hknl : slotStatusOf s "1.0" ≠ SlotStatus.loading := by
              rw [slotStatusOf_of_shape s a b hshape "1.0" (Or.inr rfl)]
              simp only [if_neg ten_ne_small]
              exact hB_nl
            have hq := evict_slot_quiet (akeys s.models) s a b hshape "1.0" (Or.inr rfl)
              rfl hkr hknl
            rw [slotStatusOf_of_shape _ a3 b3 hufsh "1.0" (Or.inr rfl)] at hq
            simpa only [if_neg ten_ne_small] using hq
          have hevict : ∀ t ∈ unload_steps (akeys s.models) s,
              residentCount t ≤ 1 ∧ readyCount t ≤ 1 := by
            intro t htm
            obtain ⟨a2, b2, hs2, hda2, hdb2⟩ := unload_steps_slots _ s a b hshape t htm
            have hw := counts_weaken_le t s a b a2 b2 hshape hs2 hda2 hdb2
            exact ⟨le_trans hw.1 hrc, le_trans hw.2 hready_s⟩
          have h2 := update_step_small _ a3 b3 hufsh SlotStatus.loading (1/10)
            (some "initializing") none
          have h3 := update_step_small _ _ _ h2 SlotStatus.loading (3/10)
            (some "loading_weights") none
          -- sync-path facts
          have hsh1 := update_step_small s a b hshape SlotStatus.loading (1/10)
            (some "initializing") none
          have hready_s1 : readyCount (update_loading_state s "small" SlotStatus.loading
              (1/10) (some "initializing") none) ≤ 1 := by
            rw [readyCount_eq _ _ _ hsh1]
            cases hbs : b.status <;> simp [hbs]
          obtain ⟨a3s, b3s, hufs, hdas, hdbs⟩ := evict_shape (akeys s.models)
            (update_loading_state s "small" SlotStatus.loading (1/10)
              (some "initializing") none) _ _ hsh1
          have hqB3s : statusCounts b3s.status = false := by
            have hkr : slotStatusOf (update_loading_state s "small" SlotStatus.loading
                (1/10) (some "initializing") none) "1.0" = SlotStatus.ready →
                (alookup (update_loading_state s "small" SlotStatus.loading (1/10)
                  (some "initializing") none).models "1.0").isSome := by
              rw [slotStatusOf_of_shape _ _ _ hsh1 "1.0" (Or.inr rfl)]
              simp only [if_neg ten_ne_small, update_models]
              exact hB_ready
            have hknl : slotStatusOf (update_loading_state s "small" SlotStatus.loading
                (1/10) (some "initializing") none) "1.0" ≠ SlotStatus.loading := by
              rw [slotStatusOf_of_shape _ _ _ hsh1 "1.0" (Or.inr rfl)]
              simp only [if_neg ten_ne_small]
              exact hB_nl
            have hq := evict_slot_quiet (akeys s.models)
              (update_loading_state s "small" SlotStatus.loading (1/10)
                (some "initializing") none) _ _ hsh1 "1.0" (Or.inr rfl)
              (by rw [update_models]) hkr hknl
            rw [slotStatusOf_of_shape _ a3s b3s hufs "1.0" (Or.inr rfl)] at hq
            simpa only [if_neg ten_ne_small] using hq
          have hevict_s : ∀ t ∈ unload_steps (akeys s.models)
              (update_loading_state s "small" SlotStatus.loading (1/10)
                (some "initializing") none), readyCount t ≤ 1 := by
            intro t htm
            obtain ⟨a2, b2, hs2, hda2, hdb2⟩ := unload_steps_slots _ _ _ _ hsh1 t htm
            have hw := counts_weaken_le t _ _ _ a2 b2 hsh1 hs2 hda2 hdb2
            exact le_trans hw.2 hready_s1
          have h3s := update_step_small _ a3s b3s hufs SlotStatus.loading (2/10)
            (some "downloading") none
          have h4s := update_step_small _ _ _ h3s SlotStatus.loading (3/10)
            (some "loading_weights") none
          refine ⟨?_, ?_, ?_⟩
          · intro t htm
            cases hpre : env.get_pretrained_model ((alookup MODEL_REPOS "small").getD "") with
            | error e =>
                simp only [load_model, load_model_sync, ht2, Bool.true_eq_false, hrep2, Bool.false_eq_true, hcache2, ite_false, ite_true, eq_self_iff_true, update_models, List.mem_cons, List.mem_append, List.not_mem_nil, List.mem_singleton, or_false, false_or, hpre] at htm
                rcases htm with (rfl | htm) | rfl | rfl | rfl
                · exact hrc
                · exact (hevict t htm).1
                · exact (counts_le_one_of_other_quiet _ _ _ h2 (Or.inr hqB3)).1
                · exact (counts_le_one_of_other_quiet _ _ _ h3 (Or.inr hqB3)).1
                · exact (counts_le_one_of_other_quiet _ _ _
                    (update_step_small _ _ _ h3 SlotStatus.error 0 none (some e))
                    (Or.inr hqB3)).1
            | ok pr =>
                obtain ⟨m, cfg⟩ := pr
                have h4 := update_step_small _ _ _ h3 SlotStatus.loading (8/10)
                  (some "moving_to_device") none
                cases hdev : env.to_device m with
                | error e =>
                    simp only [load_model, load_model_sync, ht2, Bool.true_eq_false, hrep2, Bool.false_eq_true, hcache2, ite_false, ite_true, eq_self_iff_true, update_models, List.mem_cons, List.mem_append, List.not_mem_nil, List.mem_singleton, or_false, false_or, hpre, hdev] at htm
                    rcases htm with (rfl | htm) | rfl | rfl | rfl | rfl
                    · exact hrc
                    · exact (hevict t htm).1
                    · exact (counts_le_one_of_other_quiet _ _ _ h2 (Or.inr hqB3)).1
                    · exact (counts_le_one_of_other_quiet _ _ _ h3 (Or.inr hqB3)).1
                    · exact (counts_le_one_of_other_quiet _ _ _ h4 (Or.inr hqB3)).1
                    · exact (counts_le_one_of_other_quiet _ _ _
                        (update_step_small _ _ _ h4 SlotStatus.error 0 none (some e))
                        (Or.inr hqB3)).1
                | ok m2 =>
                    simp only [load_model, load_model_sync, ht2, Bool.true_eq_false, hrep2, Bool.false_eq_true, hcache2, ite_false, ite_true, eq_self_iff_true, update_models, List.mem_cons, List.mem_append, List.not_mem_nil, List.mem_singleton, or_false, false_or, hpre, hdev] at htm
                    rcases htm with (rfl | htm) | rfl | rfl | rfl | rfl | rfl
                    · exact hrc
                    · exact (hevict t htm).1
                    · exact (counts_le_one_of_other_quiet _ _ _ h2 (Or.inr hqB3)).1
                    · exact (counts_le_one_of_other_quiet _ _ _ h3 (Or.inr hqB3)).1
                    · exact (counts_le_one_of_other_quiet _ _ _ h4 (Or.inr hqB3)).1
                    · refine (counts_le_one_of_other_quiet _
                        (LoadingState.mk SlotStatus.loading (8/10) (some "moving_to_device") none)
                        b3 ?_ (Or.inr hqB3)).1
                      rw [store_loading_states]
                      exact h4
                    · refine (counts_le_one_of_other_quiet _
                        (LoadingState.mk SlotStatus.ready 1 (some "complete") none)
                        b3 ?_ (Or.inr hqB3)).1
                      refine update_step_small _
                        (LoadingState.mk SlotStatus.loading (8/10) (some "moving_to_device") none)
                        b3 ?_ SlotStatus.ready 1 (some "complete") none
                      rw [store_loading_states]
                      exact h4
          · intro t htm
            cases hpre : env.get_pretrained_model ((alookup MODEL_REPOS "small").getD "") with
            | error e =>
                simp only [load_model, load_model_sync, ht2, Bool.true_eq_false, hrep2, Bool.false_eq_true, hcache2, ite_false, ite_true, eq_self_iff_true, update_models, List.mem_cons, List.mem_append, List.not_mem_nil, List.mem_singleton, or_false, false_or, hpre] at htm
                rcases htm with (rfl | rfl | htm) | rfl | rfl | rfl
                · exact hready_s
                · exact hready_s1
                · exact hevict_s t htm
                · exact (counts_le_one_of_other_quiet _ _ _ h3s (Or.inr hqB3s)).2
                · exact (counts_le_one_of_other_quiet _ _ _ h4s (Or.inr hqB3s)).2
                · exact (counts_le_one_of_other_quiet _ _ _
                    (update_step_small _ _ _ h4s SlotStatus.error 0 none (some e))
                    (Or.inr hqB3s)).2
            | ok pr =>
                obtain ⟨m, cfg⟩ := pr
                have h5s := update_step_small _ _ _ h4s SlotStatus.loading (8/10)
                  (some "moving_to_device") none
                cases hdev : env.to_device m with
                | error e =>
                    simp only [load_model, load_model_sync, ht2, Bool.true_eq_false, hrep2, Bool.false_eq_true, hcache2, ite_false, ite_true, eq_self_iff_true, update_models, List.mem_cons, List.mem_append, List.not_mem_nil, List.mem_singleton, or_false, false_or, hpre, hdev] at htm
                    rcases htm with (rfl | rfl | htm) | rfl | rfl | rfl | rfl
                    · exact hready_s
                    · exact hready_s1
                    · exact hevict_s t htm
                    · exact (counts_le_one_of_other_quiet _ _ _ h3s (Or.inr hqB3s)).2
                    · exact (counts_le_one_of_other_quiet _ _ _ h4s (Or.inr hqB3s)).2
                    · exact (counts_le_one_of_other_quiet _ _ _ h5s (Or.inr hqB3s)).2
                    · exact (counts_le_one_of_other_quiet _ _ _
                        (update_step_small _ _ _ h5s SlotStatus.error 0 none (some e))
                        (Or.inr hqB3s)).2
                | ok m2 =>
                    simp only [load_model, load_model_sync, ht2, Bool.true_eq_false, hrep2, Bool.false_eq_true, hcache2, ite_false, ite_true, eq_self_iff_true, update_models, List.mem_cons, List.mem_append, List.not_mem_nil, List.mem_singleton, or_false, false_or, hpre, hdev] at htm
                    rcases htm with (rfl | rfl | htm) | rfl | rfl | rfl | rfl | rfl
                    · exact hready_s
                    · exact hready_s1
                    · exact hevict_s t htm
                    · exact (counts_le_one_of_other_quiet _ _ _ h3s (Or.inr hqB3s)).2
                    · exact (counts_le_one_of_other_quiet _ _ _ h4s (Or.inr hqB3s)).2
                    · exact (counts_le_one_of_other_quiet _ _ _ h5s (Or.inr hqB3s)).2
                    · refine (counts_le_one_of_other_quiet _
                        (LoadingState.mk SlotStatus.loading (8/10) (some "moving_to_device") none)
                        b3s ?_ (Or.inr hqB3s)).2
                      rw [store_loading_states]
                      exact h5s
                    · refine (counts_le_one_of_other_quiet _
                        (LoadingState.mk SlotStatus.ready 1 (some "complete") none)
                        b3s ?_ (Or.inr hqB3s)).2
                      refine update_step_small _
                        (LoadingState.mk SlotStatus.loading (8/10) (some "moving_to_device") none)
                        b3s ?_ SlotStatus.ready 1 (some "complete") none
                      rw [store_loading_states]
                      exact h5s
          · cases hpre : env.get_pretrained_model ((alookup MODEL_REPOS "small").getD "") with
            | error e =>
                simp only [load_model, load_model_sync, ht2, Bool.true_eq_false, hrep2, Bool.false_eq_true, hcache2, ite_false, ite_true, eq_self_iff_true, update_models, List.mem_cons, List.mem_append, List.not_mem_nil, List.mem_singleton, or_false, false_or, hpre]
                exact (counts_le_one_of_other_quiet _ _ _
                  (update_step_small _ _ _ h4s SlotStatus.error 0 none (some e))
                  (Or.inr hqB3s)).1
            | ok pr =>
                obtain ⟨m, cfg⟩ := pr
                have h5s := update_step_small _ _ _ h4s SlotStatus.loading (8/10)
                  (some "moving_to_device") none
                cases hdev : env.to_device m with
                | error e =>
                    simp only [load_model, load_model_sync, ht2, Bool.true_eq_false, hrep2, Bool.false_eq_true, hcache2, ite_false, ite_true, eq_self_iff_true, update_models, List.mem_cons, List.mem_append, List.not_mem_nil, List.mem_singleton, or_false, false_or, hpre, hdev]
                    exact (counts_le_one_of_other_quiet _ _ _
                      (update_step_small _ _ _ h5s SlotStatus.error 0 none (some e))
                      (Or.inr hqB3s)).1
                | ok m2 =>
                    simp only [load_model, load_model_sync, ht2, Bool.true_eq_false, hrep2, Bool.false_eq_true, hcache2, ite_false, ite_true, eq_self_iff_true, update_models, List.mem_cons, List.mem_append, List.not_mem_nil, List.mem_singleton, or_false, false_or, hpre, hdev]
                    refine (counts_le_one_of_other_quiet _
                      (LoadingState.mk SlotStatus.ready 1 (some "complete") none)
                      b3s ?_ (Or.inr hqB3s)).1
                    refine update_step_small _
                      (LoadingState.mk SlotStatus.loading (8/10) (some "moving_to_device") none)
                      b3s ?_ SlotStatus.ready 1 (some "complete") none
                    rw [store_loading_states]
                    exact h5s
        · -- loading "1.0" while it is not cached
          obtain ⟨a3, b3, hufsh, hda, hdb⟩ := evict_shape (akeys s.models) s a b hshape
          have hqA3 : statusCounts a3.status = false := by
            have hkr : slotStatusOf s "small" = SlotStatus.ready →
                (alookup s.models "small").isSome := by
              rw [slotStatusOf_of_shape s a b hshape "small" (Or.inl rfl)]
              simp only [if_pos rfl]
              exact hA_ready
            have hknl : slotStatusOf s "small" ≠ SlotStatus.loading := by
              rw [slotStatusOf_of_shape s a b hshape "small" (Or.inl rfl)]
              simp only [if_pos rfl]
              exact hA_nl
            have hq := evict_slot_quiet (akeys s.models) s a b hshape "small" (Or.inl rfl)
              rfl hkr hknl
            rw [slotStatusOf_of_shape _ a3 b3 hufsh "small" (Or.inl rfl)] at hq
            simpa only [if_pos rfl] using hq
          have hevict : ∀ t ∈ unload_steps (akeys s.models) s,
              residentCount t ≤ 1 ∧ readyCount t ≤ 1 := by
            intro t htm
            obtain ⟨a2, b2, hs2, hda2, hdb2⟩ := unload_steps_slots _ s a b hshape t htm
            have hw := counts_weaken_le t s a b a2 b2 hshape hs2 hda2 hdb2
            exact ⟨le_trans hw.1 hrc, le_trans hw.2 hready_s⟩
          have h2 := update_step_ten _ a3 b3 hufsh SlotStatus.loading (1/10)
            (some "initializing") none
          have h3 := update_step_ten _ _ _ h2 SlotStatus.loading (3/10)
            (some "loading_weights") none
          have hsh1 := update_step_ten s a b hshape SlotStatus.loading (1/10)
            (some "initializing") none
          have hready_s1 : readyCount (update_loading_state s "1.0" SlotStatus.loading
              (1/10) (some "initializing") none) ≤ 1 := by
            rw [readyCount_eq _ _ _ hsh1]
            cases has : a.status <;> simp [has]
          obtain ⟨a3s, b3s, hufs, hdas, hdbs⟩ := evict_shape (akeys s.models)
            (update_loading_state s "1.0" SlotStatus.loading (1/10)
              (some "initializing") none) _ _ hsh1
          have hqA3s : statusCounts a3s.status = false := by
            have hkr : slotStatusOf (update_loading_state s "1.0" SlotStatus.loading
                (1/10) (some "initializing") none) "small" = SlotStatus.ready →
                (alookup (update_loading_state s "1.0" SlotStatus.loading (1/10)
                  (some "initializing") none).models "small").isSome := by
              rw [slotStatusOf_of_shape _ _ _ hsh1 "small" (Or.inl rfl)]
              simp only [if_pos rfl, update_models]
              exact hA_ready
            have hknl : slotStatusOf (update_loading_state s "1.0" SlotStatus.loading
                (1/10) (some "initializing") none) "small" ≠ SlotStatus.loading := by
              rw [slotStatusOf_of_shape _ _ _ hsh1 "small" (Or.inl rfl)]
              simp only [if_pos rfl]
              exact hA_nl
            have hq := evict_slot_quiet (akeys s.models)
              (update_loading_state s "1.0" SlotStatus.loading (1/10)
                (some "initializing") none) _ _ hsh1 "small" (Or.inl rfl)
              (by rw [update_models]) hkr hknl
            rw [slotStatusOf_of_shape _ a3s b3s hufs "small" (Or.inl rfl)] at hq
            simpa only [if_pos rfl] using hq
          have hevict_s : ∀ t ∈ unload_steps (akeys s.models)
              (update_loading_state s "1.0" SlotStatus.loading (1/10)
                (some "initializing") none), readyCount t ≤ 1 := by
            intro t htm
            obtain ⟨a2, b2, hs2, hda2, hdb2⟩ := unload_steps_slots _ _ _ _ hsh1 t htm
            have hw := counts_weaken_le t _ _ _ a2 b2 hsh1 hs2 hda2 hdb2
            exact le_trans hw.2 hready_s1
          have h3s := update_step_ten _ a3s b3s hufs SlotStatus.loading (2/10)
            (some "downloading") none
          have h4s := update_step_ten _ _ _ h3s SlotStatus.loading (3/10)
            (some "loading_weights") none
          refine ⟨?_, ?_, ?_⟩
          · intro t htm
            cases hpre : env.get_pretrained_model ((alookup MODEL_REPOS "1.0").getD "") with
            | error e =>
                simp only [load_model, load_model_sync, ht2, Bool.true_eq_false, hrep2, Bool.false_eq_true, hcache2, ite_false, ite_true, eq_self_iff_true, update_models, List.mem_cons, List.mem_append, List.not_mem_nil, List.mem_singleton, or_false, false_or, hpre] at htm
                rcases htm with (rfl | htm) | rfl | rfl | rfl
                · exact hrc
                · exact (hevict t htm).1
                · exact (counts_le_one_of_other_quiet _ _ _ h2 (Or.inl hqA3)).1
                · exact (counts_le_one_of_other_quiet _ _ _ h3 (Or.inl hqA3)).1
                · exact (counts_le_one_of_other_quiet _ _ _
                    (update_step_ten _ _ _ h3 SlotStatus.error 0 none (some e))
                    (Or.inl hqA3)).1
            | ok pr =>
                obtain ⟨m, cfg⟩ := pr
                have h4 := update_step_ten _ _ _ h3 SlotStatus.loading (8/10)
                  (some "moving_to_device") none
                cases hdev : env.to_device m with
                | error e =>
                    simp only [load_model, load_model_sync, ht2, Bool.true_eq_false, hrep2, Bool.false_eq_true, hcache2, ite_false, ite_true, eq_self_iff_true, update_models, List.mem_cons, List.mem_append, List.not_mem_nil, List.mem_singleton, or_false, false_or, hpre, hdev] at htm
                    rcases htm with (rfl | htm) | rfl | rfl | rfl | rfl
                    · exact hrc
                    · exact (hevict t htm).1
                    · exact (counts_le_one_of_other_quiet _ _ _ h2 (Or.inl hqA3)).1
                    · exact (counts_le_one_of_other_quiet _ _ _ h3 (Or.inl hqA3)).1
                    · exact (counts_le_one_of_other_quiet _ _ _ h4 (Or.inl hqA3)).1
                    · exact (counts_le_one_of_other_quiet _ _ _
                        (update_step_ten _ _ _ h4 SlotStatus.error 0 none (some e))
                        (Or.inl hqA3)).1
                | ok m2 =>
                    simp only [load_model, load_model_sync, ht2, Bool.true_eq_false, hrep2, Bool.false_eq_true, hcache2, ite_false, ite_true, eq_self_iff_true, update_models, List.mem_cons, List.mem_append, List.not_mem_nil, List.mem_singleton, or_false, false_or, hpre, hdev] at htm
                    rcases htm with (rfl | htm) | rfl | rfl | rfl | rfl | rfl
                    · exact hrc
                    · exact (hevict t htm).1
                    · exact (counts_le_one_of_other_quiet _ _ _ h2 (Or.inl hqA3)).1
                    · exact (counts_le_one_of_other_quiet _ _ _ h3 (Or.inl hqA3)).1
                    · exact (counts_le_one_of_other_quiet _ _ _ h4 (Or.inl hqA3)).1
                    · refine (counts_le_one_of_other_quiet _ a3
                        (LoadingState.mk SlotStatus.loading (8/10) (some "moving_to_device") none)
                        ?_ (Or.inl hqA3)).1
                      rw [store_loading_states]
                      exact h4
                    · refine (counts_le_one_of_other_quiet _ a3
                        (LoadingState.mk SlotStatus.ready 1 (some "complete") none)
                        ?_ (Or.inl hqA3)).1
                      refine update_step_ten _ a3
                        (LoadingState.mk SlotStatus.loading (8/10) (some "moving_to_device") none)
                        ?_ SlotStatus.ready 1 (some "complete") none
                      rw [store_loading_states]
                      exact h4
          · intro t htm
            cases hpre : env.get_pretrained_model ((alookup MODEL_REPOS "1.0").getD "") with
            | error e =>
                simp only [load_model, load_model_sync, ht2, Bool.true_eq_false, hrep2, Bool.false_eq_true, hcache2, ite_false, ite_true, eq_self_iff_true, update_models, List.mem_cons, List.mem_append, List.not_mem_nil, List.mem_singleton, or_false, false_or, hpre] at htm
                rcases htm with (rfl | rfl | htm) | rfl | rfl | rfl
                · exact hready_s
                · exact hready_s1
                · exact hevict_s t htm
                · exact (counts_le_one_of_other_quiet _ _ _ h3s (Or.inl hqA3s)).2
                · exact (counts_le_one_of_other_quiet _ _ _ h4s (Or.inl hqA3s)).2
                · exact (counts_le_one_of_other_quiet _ _ _
                    (update_step_ten _ _ _ h4s SlotStatus.error 0 none (some e))
                    (Or.inl hqA3s)).2
            | ok pr =>
                obtain ⟨m, cfg⟩ := pr
                have h5s := update_step_ten _ _ _ h4s SlotStatus.loading (8/10)
                  (some "moving_to_device") none
                cases hdev : env.to_device m with
                | error e =>
                    simp only [load_model, load_model_sync, ht2, Bool.true_eq_false, hrep2, Bool.false_eq_true, hcache2, ite_false, ite_true, eq_self_iff_true, update_models, List.mem_cons, List.mem_append, List.not_mem_nil, List.mem_singleton, or_false, false_or, hpre, hdev] at htm
                    rcases htm with (rfl | rfl | htm) | rfl | rfl | rfl | rfl
                    · exact hready_s
                    · exact hready_s1
                    · exact hevict_s t htm
                    · exact (counts_le_one_of_other_quiet _ _ _ h3s (Or.inl hqA3s)).2
                    · exact (counts_le_one_of_other_quiet _ _ _ h4s (Or.inl hqA3s)).2
                    · exact (counts_le_one_of_other_quiet _ _ _ h5s (Or.inl hqA3s)).2
                    · exact (counts_le_one_of_other_quiet _ _ _
                        (update_step_ten _ _ _ h5s SlotStatus.error 0 none (some e))
                        (Or.inl hqA3s)).2
                | ok m2 =>
                    simp only [load_model, load_model_sync, ht2, Bool.true_eq_false, hrep2, Bool.false_eq_true, hcache2, ite_false, ite_true, eq_self_iff_true, update_models, List.mem_cons, List.mem_append, List.not_mem_nil, List.mem_singleton, or_false, false_or, hpre, hdev] at htm
                    rcases htm with (rfl | rfl | htm) | rfl | rfl | rfl | rfl | rfl
                    · exact hready_s
                    · exact hready_s1
                    · exact hevict_s t htm
                    · exact (counts_le_one_of_other_quiet _ _ _ h3s (Or.inl hqA3s)).2
                    · exact (counts_le_one_of_other_quiet _ _ _ h4s (Or.inl hqA3s)).2
                    · exact (counts_le_one_of_other_quiet _ _ _ h5s (Or.inl hqA3s)).2
                    · refine (counts_le_one_of_other_quiet _ a3s
                        (LoadingState.mk SlotStatus.loading (8/10) (some "moving_to_device") none)
                        ?_ (Or.inl hqA3s)).2
                      rw [store_loading_states]
                      exact h5s
                    · refine (counts_le_one_of_other_quiet _ a3s
                        (LoadingState.mk SlotStatus.ready 1 (some "complete") none)
                        ?_ (Or.inl hqA3s)).2
                      refine update_step_ten _ a3s
                        (LoadingState.mk SlotStatus.loading (8/10) (some "moving_to_device") none)
                        ?_ SlotStatus.ready 1 (some "complete") none
                      rw [store_loading_states]
                      exact h5s
          · cases hpre : env.get_pretrained_model ((alookup MODEL_REPOS "1.0").getD "") with
            | error e =>
                simp only [load_model, load_model_sync, ht2, Bool.true_eq_false, hrep2, Bool.false_eq_true, hcache2, ite_false, ite_true, eq_self_iff_true, update_models, List.mem_cons, List.mem_append, List.not_mem_nil, List.mem_singleton, or_false, false_or, hpre]
                exact (counts_le_one_of_other_quiet _ _ _
                  (update_step_ten _ _ _ h4s SlotStatus.error 0 none (some e))
                  (Or.inl hqA3s)).1
            | ok pr =>
                obtain ⟨m, cfg⟩ := pr
                have h5s := update_step_ten _ _ _ h4s SlotStatus.loading (8/10)
                  (some "moving_to_device") none
                cases hdev : env.to_device m with
                | error e =>
                    simp only [load_model, load_model_sync, ht2, Bool.true_eq_false, hrep2, Bool.false_eq_true, hcache2, ite_false, ite_true, eq_self_iff_true, update_models, List.mem_cons, List.mem_append, List.not_mem_nil, List.mem_singleton, or_false, false_or, hpre, hdev]
                    exact (counts_le_one_of_other_quiet _ _ _
                      (update_step_ten _ _ _ h5s SlotStatus.error 0 none (some e))
                      (Or.inl hqA3s)).1
                | ok m2 =>
                    simp only [load_model, load_model_sync, ht2, Bool.true_eq_false, hrep2, Bool.false_eq_true, hcache2, ite_false, ite_true, eq_self_iff_true, update_models, List.mem_cons, List.mem_append, List.not_mem_nil, List.mem_singleton, or_false, false_or, hpre, hdev]
                    refine (counts_le_one_of_other_quiet _ a3s
                      (LoadingState.mk SlotStatus.ready 1 (some "complete") none)
                      ?_ (Or.inl hqA3s)).1
                    refine update_step_ten _ a3s
                      (LoadingState.mk SlotStatus.loading (8/10) (some "moving_to_device") none)
                      ?_ SlotStatus.ready 1 (some "complete") none
                    rw [store_loading_states]
                    exact h5s

/-- C1 witness: the amended theorem applied to the concrete reachable state
with "small" ready while loading "1.0" in the all-success environment. -/
theorem c1_single_residency_amended_witness :
    SingleResidencyAmended okEnv loaderSmallReady "1.0" :=
  c1_single_residency_amended okEnv loaderSmallReady
    (LoadingState.mk SlotStatus.ready 1 (some "complete") none)
    (LoadingState.mk SlotStatus.idle 0 none none) "1.0"
    (by decide) (by decide) (by decide) (by decide) (by decide) (by decide) (by decide)
    (by decide)

/-- C4, counterexample: `get_loading_status` applied to the unknown variant
name "bogus" does not fail with an UnknownVariant error — it silently
returns a default idle slot state (`dict.get(model_id, LoadingState())` on
model_loader.py line 146). -/
theorem c4_unknown_variant_cex :
    get_loading_status initLoader "bogus" =
      { model_id := "bogus", status := SlotStatus.idle, progress := 0,
        stage := none, error := none } := by
  rfl

/-- C4 (amended): `get_loading_status` always succeeds; for a known variant
it returns the slot's current status/progress/stage/error, and for any
other name it silently returns a default idle slot state.  The fail-fast
rejection of unknown variant names lives one layer up, in the HTTP route
`GET /models/{model_id}/status` (routes.py lines 57–63), which returns 404
exactly for names outside {"small", "1.0"}. -/
theorem c4_unknown_variant_amended (s : LoaderState) (mid : String) (st : LoadingState)
    (hs : alookup s.loading_states mid = some st) (hmid : mid = "small" ∨ mid = "1.0") :
    get_loading_status s mid =
      { model_id := mid, status := st.status, progress := st.progress,
        stage := st.stage, error := st.error } ∧
    get_model_status_route s mid = Except.ok (get_loading_status s mid) ∧
    (∀ other, alookup s.loading_states other = none →
      get_loading_status s other =
        { model_id := other, status := SlotStatus.idle, progress := 0,
          stage := none, error := none }) ∧
    (∀ other, other ≠ "small" → other ≠ "1.0" →
      get_model_status_route s other = Except.error 404) := by
  refine ⟨?_, ?_, ?_, ?_⟩
  · simp [get_loading_status, hs]
  · simp [get_model_status_route, hmid]
  · intro other hno
    simp [get_loading_status, hno]
  · intro other h1 h2
    simp [get_model_status_route, h1, h2]

/-- C4 witness: the amended theorem applied at the initial loader state,
the known variant "small" and the unknown name "bogus". -/
theorem c4_unknown_variant_amended_witness :
    get_loading_status initLoader "small" =
      { model_id := "small", status := SlotStatus.idle, progress := 0,
        stage := none, error := none } ∧
    get_model_status_route initLoader "bogus" = Except.error 404 :=
  ⟨(c4_unknown_variant_amended initLoader "small"
      (LoadingState.mk SlotStatus.idle 0 none none) rfl (Or.inl rfl)).1,
   (c4_unknown_variant_amended initLoader "small"
      (LoadingState.mk SlotStatus.idle 0 none none) rfl (Or.inl rfl)).2.2.2 "bogus"
      (by decide) (by decide)⟩

/-- C7: cache-hit acquire — when the requested variant is already resident
(present in `_models`), `load_model` returns the cached (model, config)
pair, never calls `get_pretrained_model`, evicts nothing (models, configs
and `_current_model` unchanged), and leaves the loading states of every
other variant untouched. -/
theorem c7_cache_hit (env : LoadEnv) (s : LoaderState) (v : String) (m cfg : Nat)
    (htorch : env.torch_available = true)
    (hrepo : (alookup MODEL_REPOS v).isNone = false)
    (hm : alookup s.models v = some m)
    (hcfg : alookup s.model_configs v = some cfg) :
    (load_model env s v).result = Except.ok (m, cfg) ∧
    (load_model env s v).calls = 0 ∧
    (load_model env s v).final.models = s.models ∧
    (load_model env s v).final.model_configs = s.model_configs ∧
    (load_model env s v).final.current_model = s.current_model ∧
    ∀ k, k ≠ v → alookup (load_model env s v).final.loading_states k
      = alookup s.loading_states k := by
  have hsome : (alookup s.models v).isSome = true := by rw [hm]; rfl
  simp only [load_model, htorch, Bool.true_eq_false, hrepo, Bool.false_eq_true, ite_false,
    hsome, ite_true]
  refine ⟨?_, ?_, ?_, ?_, ?_, ?_⟩
  · rw [hm, hcfg]; rfl
  · trivial
  · exact update_models ..
  · exact update_model_configs ..
  · exact update_current_model ..
  · intro k hk
    unfold update_loading_state
    split
    · exact alookup_aset_ne s.loading_states v k _ (fun hc => hk hc.symm)
    · rfl

/-- C7 witness: cache-hit on the reachable state where "small" is resident
with handle 107 and config 8. -/
theorem c7_cache_hit_witness :
    (load_model okEnv loaderSmallReady "small").result = Except.ok (107, 8) ∧
    (load_model okEnv loaderSmallReady "small").calls = 0 ∧
    alookup (load_model okEnv loaderSmallReady "small").final.loading_states "1.0"
      = alookup loaderSmallReady.loading_states "1.0" :=
  ⟨(c7_cache_hit okEnv loaderSmallReady "small" 107 8 rfl rfl (by decide) (by decide)).1,
   (c7_cache_hit okEnv loaderSmallReady "small" 107 8 rfl rfl (by decide) (by decide)).2.1,
   (c7_cache_hit okEnv loaderSmallReady "small" 107 8 rfl rfl (by decide)
      (by decide)).2.2.2.2.2 "1.0" (by decide)⟩


/-! # Concurrency model for background loads (C2)

`load_model_background` (model_loader.py lines 176–194) acquires
`_loading_lock`, checks `is_loading(v) or is_ready(v)` and either returns
without loading or runs `_load_model_sync` in an executor thread while
still holding the lock, releasing it when the executor finishes.

In asyncio, a coroutine only yields at genuine await points.  The body of
the `async with` block up to `run_in_executor` contains none, so lock
acquisition, the skip check and the executor spawn form one atomic action;
a caller that finds the lock taken suspends until release.  While a holder
is suspended on `run_in_executor`, the only other modeled participants are
background callers of the same variant, and every one of them is blocked
on the lock — so no transition can interleave with the executor's
mutations and the whole executor run may soundly be taken as one
transition (`finish`).  A foreground `load_model` call contains no await
that yields either (its nested coroutines never suspend), so an in-flight
foreground load runs to completion atomically with respect to the event
loop; concurrent background callers then observe its final state, which is
the second initial configuration below. -/

/-- Program counter of one `load_model_background` task. -/
inductive BgPc
  | start
  | inflight
  | done (did_load : Bool)
deriving DecidableEq, Repr

/-- Global configuration: loader state, `_loading_lock` holder, one pc per
background task, and the total number of `get_pretrained_model`
invocations performed. -/
structure Sys where
  loader : LoaderState
  lock : Option Nat
  pcs : List BgPc
  load_count : Nat

/-- Interleaving semantics of `load_model_background` tasks for variant
`v`. -/
inductive BgStep (env : LoadEnv) (v : String) : Sys → Sys → Prop
  | enter_skip (i : Nat) (c : Sys)
      (hl : c.lock = none) (hp : c.pcs[i]? = some BgPc.start)
      (hg : is_loading c.loader v = true ∨ is_ready c.loader v = true) :
      BgStep env v c { c with pcs := c.pcs.set i (BgPc.done false) }
  | enter_load (i : Nat) (c : Sys)
      (hl : c.lock = none) (hp : c.pcs[i]? = some BgPc.start)
      (hg : ¬(is_loading c.loader v = true ∨ is_ready c.loader v = true)) :
      BgStep env v c { c with lock := some i, pcs := c.pcs.set i BgPc.inflight }
  | finish (i : Nat) (c : Sys)
      (hl : c.lock = some i) (hp : c.pcs[i]? = some BgPc.inflight) :
      BgStep env v c
        { loader := (load_model_sync env c.loader v).final,
          lock := none,
          pcs := c.pcs.set i (BgPc.done true),
          load_count := c.load_count + (load_model_sync env c.loader v).calls }

/-- Reachability under the interleaving semantics. -/
def Reach (env : LoadEnv) (v : String) : Sys → Sys → Prop :=
  Relation.ReflTransGen (BgStep env v)

/-- Mutual exclusion: at most one task is mid-load. -/
def mutex (c : Sys) : Prop :=
  ∀ i j : Nat, c.pcs[i]? = some BgPc.inflight → c.pcs[j]? = some BgPc.inflight → i = j

/-- Every task has returned. -/
def allDone (c : Sys) : Prop := ∀ p ∈ c.pcs, ∃ d, p = BgPc.done d

/-- Scenario A: one load of `v` is in flight (task 0 holds the lock with
its executor pending on loader state `L0`) and `n` further background
callers are about to run. -/
def initInflight (L0 : LoaderState) (n : Nat) : Sys :=
  { loader := L0, lock := some 0, pcs := BgPc.inflight :: List.replicate n BgPc.start,
    load_count := 0 }

/-- Scenario B: a load of `v` has already completed (e.g. an atomic
foreground `load_model`), leaving loader state `LR`, and `n` background
callers are about to run. -/
def initReady (LR : LoaderState) (n : Nat) : Sys :=
  { loader := LR, lock := none, pcs := List.replicate n BgPc.start, load_count := 0 }

theorem lt_of_getq {α : Type} (l : List α) (i : Nat) (a : α) (h : l[i]? = some a) :
    i < l.length := by
  by_contra hc
  rw [List.getElem?_eq_none (Nat.le_of_not_lt hc)] at h
  exact Option.noConfusion h

theorem mem_of_getq {α : Type} (l : List α) (i : Nat) (a : α) (h : l[i]? = some a) :
    a ∈ l := by
  induction l generalizing i with
  | nil => simp at h
  | cons x xs ih =>
      cases i with
      | zero =>
          simp only [List.getElem?_cons_zero, Option.some.injEq] at h
          rw [← h]
          exact List.mem_cons_self x xs
      | succ n =>
          simp only [List.getElem?_cons_succ] at h
          exact List.mem_cons_of_mem x (ih n h)

/-- Invariant for scenario A: either task 0 still holds the lock with its
run pending and nothing has loaded, or task 0 has finished the single load
and every other task is untouched or has skipped. -/
def InvA (env : LoadEnv) (v : String) (L0 : LoaderState) (c : Sys) : Prop :=
  (c.lock = some 0 ∧ c.pcs[0]? = some BgPc.inflight ∧ c.loader = L0 ∧ c.load_count = 0 ∧
    ∀ (i : Nat) (p : BgPc), i ≠ 0 → c.pcs[i]? = some p → p = BgPc.start ∨ p = BgPc.done false)
  ∨
  (c.lock = none ∧ c.pcs[0]? = some (BgPc.done true) ∧
    c.loader = (load_model_sync env L0 v).final ∧ c.load_count = 1 ∧
    ∀ (i : Nat) (p : BgPc), i ≠ 0 → c.pcs[i]? = some p →
      p = BgPc.start ∨ p = BgPc.done false)

theorem invA_preserved (env : LoadEnv) (v : String) (L0 : LoaderState)
    (hcalls : (load_model_sync env L0 v).calls = 1)
    (hready : is_ready (load_model_sync env L0 v).final v = true)
    (c c2 : Sys) (hstep : BgStep env v c c2) (hinv : InvA env v L0 c) :
    InvA env v L0 c2 := by
  rcases hinv with ⟨hl, hp0, hld, hlc, hrest⟩ | ⟨hl, hp0, hld, hlc, hrest⟩
  · cases hstep with
    | enter_skip i c hl2 hp hg => rw [hl] at hl2; exact Option.noConfusion hl2
    | enter_load i c hl2 hp hg => rw [hl] at hl2; exact Option.noConfusion hl2
    | finish i c hl2 hp =>
        have hi : i = 0 := by
          rw [hl] at hl2
          exact (Option.some.inj hl2).symm
        subst hi
        refine Or.inr ⟨rfl, ?_, ?_, ?_, ?_⟩
        · rw [List.getElem?_set_self (lt_of_getq _ _ _ hp0)]
        · show (load_model_sync env c.loader v).final = (load_model_sync env L0 v).final
          rw [hld]
        · show c.load_count + (load_model_sync env c.loader v).calls = 1
          rw [hld, hlc, hcalls]
        · intro i p hi hp2
          rw [List.getElem?_set_ne (fun hc => hi hc.symm)] at hp2
          exact hrest i p hi hp2
  · cases hstep with
    | enter_skip i c hl2 hp hg =>
        have hi : i ≠ 0 := by
          intro hc
          subst hc
          rw [hp0] at hp
          exact BgPc.noConfusion (Option.some.inj hp)
        refine Or.inr ⟨hl, ?_, hld, hlc, ?_⟩
        · rw [List.getElem?_set_ne hi]
          exact hp0
        · intro k p hk hp2
          by_cases hki : k = i
          · subst hki
            rw [List.getElem?_set_self (lt_of_getq _ _ _ hp)] at hp2
            exact Or.inr (Option.some.inj hp2).symm
          · rw [List.getElem?_set_ne (fun hc => hki hc.symm)] at hp2
            exact hrest k p hk hp2
    | enter_load i c hl2 hp hg =>
        exact absurd (Or.inr (hld ▸ hready)) hg
    | finish i c hl2 hp => rw [hl] at hl2; exact Option.noConfusion hl2

/-- Invariant for scenario B: nothing ever loads. -/
def InvB (LR : LoaderState) (c : Sys) : Prop :=
  c.lock = none ∧ c.loader = LR ∧ c.load_count = 0 ∧
  ∀ (i : Nat) (p : BgPc), c.pcs[i]? = some p → p = BgPc.start ∨ p = BgPc.done false

theorem invB_preserved (env : LoadEnv) (v : String) (LR : LoaderState)
    (hLR : is_ready LR v = true)
    (c c2 : Sys) (hstep : BgStep env v c c2) (hinv : InvB LR c) : InvB LR c2 := by
  obtain ⟨hl, hld, hlc, hrest⟩ := hinv
  cases hstep with
  | enter_skip i c hl2 hp hg =>
      refine ⟨hl, hld, hlc, ?_⟩
      intro k p hp2
      by_cases hki : k = i
      · subst hki
        rw [List.getElem?_set_self (lt_of_getq _ _ _ hp)] at hp2
        exact Or.inr (Option.some.inj hp2).symm
      · rw [List.getElem?_set_ne (fun hc => hki hc.symm)] at hp2
        exact hrest k p hp2
  | enter_load i c hl2 hp hg =>
      exact absurd (Or.inr (hld ▸ hLR)) hg
  | finish i c hl2 hp =>
      rcases hrest i _ hp with h | h
      · exact BgPc.noConfusion h
      · exact BgPc.noConfusion h

theorem invA_mutex (env : LoadEnv) (v : String) (L0 : LoaderState) (c : Sys)
    (hinv : InvA env v L0 c) : mutex c := by
  intro i j hi hj
  rcases hinv with ⟨_, hp0, _, _, hrest⟩ | ⟨_, hp0, _, _, hrest⟩
  · by_cases hi0 : i = 0
    · by_cases hj0 : j = 0
      · rw [hi0, hj0]
      · exfalso
        rcases hrest j _ hj0 hj with h | h
        · exact BgPc.noConfusion h
        · exact BgPc.noConfusion h
    · exfalso
      rcases hrest i _ hi0 hi with h | h
      · exact BgPc.noConfusion h
      · exact BgPc.noConfusion h
  · exfalso
    by_cases hi0 : i = 0
    · subst hi0
      rw [hp0] at hi
      exact BgPc.noConfusion (Option.some.inj hi)
    · rcases hrest i _ hi0 hi with h | h
      · exact BgPc.noConfusion h
      · exact BgPc.noConfusion h

theorem invB_mutex (LR : LoaderState) (c : Sys) (hinv : InvB LR c) : mutex c := by
  intro i j hi hj
  exfalso
  rcases hinv.2.2.2 i _ hi with h | h
  · exact BgPc.noConfusion h
  · exact BgPc.noConfusion h


theorem invA_terminal (env : LoadEnv) (v : String) (L0 : LoaderState) (c : Sys)
    (hinv : InvA env v L0 c) (hdone : allDone c) :
    c.load_count = 1 ∧ ∀ (i : Nat) (d : Bool), i ≠ 0 → c.pcs[i]? = some (BgPc.done d) →
      d = false := by
  rcases hinv with ⟨_, hp0, _, _, _⟩ | ⟨_, _, _, hlc, hrest⟩
  · exfalso
    obtain ⟨d, hd⟩ := hdone _ (mem_of_getq _ _ _ hp0)
    exact BgPc.noConfusion hd
  · refine ⟨hlc, ?_⟩
    intro i d hi hp
    rcases hrest i _ hi hp with h | h
    · exact BgPc.noConfusion h
    · exact BgPc.done.inj h

/-- Lock discipline: any task that is mid-load holds `_loading_lock`. -/
def InvM (c : Sys) : Prop :=
  ∀ (i : Nat), c.pcs[i]? = some BgPc.inflight → c.lock = some i

theorem invM_preserved (env : LoadEnv) (v : String) (c c2 : Sys)
    (hstep : BgStep env v c c2) (hinv : InvM c) : InvM c2 := by
  cases hstep with
  | enter_skip i c hl hp hg =>
      intro j hj
      by_cases hji : j = i
      · subst hji
        rw [List.getElem?_set_self (lt_of_getq _ _ _ hp)] at hj
        exact BgPc.noConfusion (Option.some.inj hj)
      · rw [List.getElem?_set_ne (fun hc => hji hc.symm)] at hj
        exact hinv j hj
  | enter_load i c hl hp hg =>
      intro j hj
      by_cases hji : j = i
      · subst hji; rfl
      · rw [List.getElem?_set_ne (fun hc => hji hc.symm)] at hj
        rw [hinv j hj] at hl
        exact Option.noConfusion hl
  | finish i c hl hp =>
      intro j hj
      by_cases hji : j = i
      · subst hji
        rw [List.getElem?_set_self (lt_of_getq _ _ _ hp)] at hj
        exact BgPc.noConfusion (Option.some.inj hj)
      · rw [List.getElem?_set_ne (fun hc => hji hc.symm)] at hj
        exact absurd (Option.some.inj ((hinv j hj).symm.trans hl)) hji

theorem invM_mutex (c : Sys) (hinv : InvM c) : mutex c := by
  intro i j hi hj
  have h2 := hinv j hj
  rw [hinv i hi] at h2
  exact Option.some.inj h2

theorem invM_init_inflight (L0 : LoaderState) (n : Nat) : InvM (initInflight L0 n) := by
  intro i hi
  cases i with
  | zero => rfl
  | succ k =>
      simp only [initInflight, List.getElem?_cons_succ] at hi
      exact absurd (List.eq_of_mem_replicate (mem_of_getq _ _ _ hi)) (by decide)

theorem invM_init_ready (LR : LoaderState) (n : Nat) : InvM (initReady LR n) := by
  intro i hi
  simp only [initReady] at hi
  exact absurd (List.eq_of_mem_replicate (mem_of_getq _ _ _ hi)) (by decide)

theorem invM_reach (env : LoadEnv) (v : String) (c0 c : Sys) (h0 : InvM c0)
    (hr : Reach env v c0 c) : InvM c := by
  induction hr with
  | refl => exact h0
  | tail hsteps hstep ih => exact invM_preserved env v _ _ hstep ih

/-- Environment whose `get_pretrained_model` call raises (e.g. the weight
download fails); the torch import itself succeeds. -/
def failEnv : LoadEnv :=
  { torch_available := true,
    get_pretrained_model := fun _ => Except.error "download failed",
    to_device := fun m => Except.ok (m + 100) }

/-- Configuration after the in-flight load of "1.0" has failed: its slot
is "error", the lock is free again, and one background caller is still
waiting to run. -/
def c2cex1 : Sys :=
  { loader := (load_model_sync failEnv initLoader "1.0").final, lock := none,
    pcs := [BgPc.done true, BgPc.start], load_count := 1 }

/-- Configuration after the waiting caller re-checks
`is_loading`/`is_ready` (both false on the "error" slot) and re-enters the
load. -/
def c2cex2 : Sys :=
  { loader := (load_model_sync failEnv initLoader "1.0").final, lock := some 1,
    pcs := [BgPc.done true, BgPc.inflight], load_count := 1 }

/-- Final configuration of the counterexample run: both tasks performed a
full load sequence. -/
def c2cexFinal : Sys :=
  { loader := (load_model_sync failEnv (load_model_sync failEnv initLoader "1.0").final
      "1.0").final,
    lock := none, pcs := [BgPc.done true, BgPc.done true], load_count := 2 }

/-- C2, counterexample: when the in-flight `_load_model_sync` of "1.0"
fails, the slot ends "error", so a background caller that was blocked on
`_loading_lock` finds `is_loading` and `is_ready` both false (line 185)
and runs `_load_model_sync` again — a reachable interleaving in which the
external `get_pretrained_model` runs twice and a second full load sequence
executes, contradicting "exactly one load sequence executes (the external
get_pretrained_model call runs at most once)". -/
theorem c2_mutual_exclusion_cex :
    Reach failEnv "1.0" (initInflight initLoader 1) c2cexFinal ∧
    c2cexFinal.load_count = 2 ∧
    is_loading (load_model_sync failEnv initLoader "1.0").final "1.0" = false ∧
    is_ready (load_model_sync failEnv initLoader "1.0").final "1.0" = false ∧
    allDone c2cexFinal := by
  refine ⟨?_, rfl, by decide, by decide, ?_⟩
  · exact Relation.ReflTransGen.tail
      (Relation.ReflTransGen.tail
        (Relation.ReflTransGen.tail Relation.ReflTransGen.refl
          (BgStep.finish 0 (initInflight initLoader 1) rfl rfl))
        (BgStep.enter_load 1 c2cex1 rfl rfl (by decide)))
      (BgStep.finish 1 c2cex2 rfl rfl)
  · intro p hp
    simp only [c2cexFinal, List.mem_cons, List.not_mem_nil, or_false] at hp
    rcases hp with rfl | rfl <;> exact ⟨true, rfl⟩

/-- C2 (amended): loads of a variant are serialized, but only a
SUCCESSFUL in-flight load suppresses all duplicates.  In every reachable
interleaving from either initial scenario — under ANY environment,
including one whose load fails — at most one task is ever mid-load, so
`get_pretrained_model` calls never overlap.  When the in-flight load
performs its single external call and leaves the variant ready, it is also
unique: once every task has returned, the external call ran exactly once
in scenario A and never in scenario B, and every other background caller
returned without loading.  When the in-flight load fails, a caller that
was blocked on `_loading_lock` re-runs the load afterwards (see the
counterexample), so at-most-once needs the success assumption. -/
theorem c2_mutual_exclusion_amended (env : LoadEnv) (v : String) (L0 LR : LoaderState)
    (n : Nat)
    (hcalls : (load_model_sync env L0 v).calls = 1)
    (hready : is_ready (load_model_sync env L0 v).final v = true)
    (hLR : is_ready LR v = true) :
    (∀ (env2 : LoadEnv) (M : LoaderState) (m : Nat) (c : Sys),
      Reach env2 v (initInflight M m) c → mutex c) ∧
    (∀ (env2 : LoadEnv) (M : LoaderState) (m : Nat) (c : Sys),
      Reach env2 v (initReady M m) c → mutex c) ∧
    (∀ c, Reach env v (initInflight L0 n) c → allDone c → c.load_count = 1 ∧
      ∀ (i : Nat) (d : Bool), i ≠ 0 → c.pcs[i]? = some (BgPc.done d) → d = false) ∧
    (∀ c, Reach env v (initReady LR n) c → allDone c → c.load_count = 0 ∧
      ∀ (i : Nat) (d : Bool), c.pcs[i]? = some (BgPc.done d) → d = false) := by
  refine ⟨?_, ?_, ?_, ?_⟩
  · intro env2 M m c hr
    exact invM_mutex c (invM_reach env2 v _ c (invM_init_inflight M m) hr)
  · intro env2 M m c hr
    exact invM_mutex c (invM_reach env2 v _ c (invM_init_ready M m) hr)
  · intro c hr
    have hinv : InvA env v L0 c := by
      induction hr with
      | refl =>
          left
          refine ⟨rfl, ?_, rfl, rfl, ?_⟩
          · simp [initInflight]
          intro i p hi hp
          cases i with
          | zero => exact absurd rfl hi
          | succ k =>
              simp only [initInflight, List.getElem?_cons_succ] at hp
              exact Or.inl (List.eq_of_mem_replicate (mem_of_getq _ _ _ hp))
      | tail hsteps hstep ih => exact invA_preserved env v L0 hcalls hready _ _ hstep ih
    exact invA_terminal env v L0 c hinv
  · intro c hr
    have hinv : InvB LR c := by
      induction hr with
      | refl =>
          refine ⟨rfl, rfl, rfl, ?_⟩
          intro i p hp
          exact Or.inl (List.eq_of_mem_replicate (mem_of_getq _ _ _ hp))
      | tail hsteps hstep ih => exact invB_preserved env v LR hLR _ _ hstep ih
    intro hd
    refine ⟨hinv.2.2.1, ?_⟩
    intro i d hp
    rcases hinv.2.2.2 i _ hp with h | h
    · exact BgPc.noConfusion h
    · exact BgPc.done.inj h

/-- C2 witness: the serialization conclusion applied to the FAILING
environment's scenario-A start (one in-flight load, one waiting caller)
and to the all-success scenario-B start. -/
theorem c2_mutual_exclusion_amended_witness :
    mutex (initInflight initLoader 1) ∧
    mutex (initReady (load_model_sync okEnv loaderSmallReady "1.0").final 2) :=
  ⟨(c2_mutual_exclusion_amended okEnv "1.0" loaderSmallReady
      (load_model_sync okEnv loaderSmallReady "1.0").final 2 (by decide) (by decide)
      (by decide)).1 failEnv initLoader 1 _ Relation.ReflTransGen.refl,
   (c2_mutual_exclusion_amended okEnv "1.0" loaderSmallReady
      (load_model_sync okEnv loaderSmallReady "1.0").final 2 (by decide) (by decide)
      (by decide)).2.1 okEnv _ 2 _ Relation.ReflTransGen.refl⟩

/-! # AudioService (backend/app/services/audio.py)

Jobs keep their status as the literal Python string, so that the
`"complete"` vs `"completed"` comparison made by the HTTP routes and the
websocket handler is captured faithfully.  Progress callbacks are opaque
ids; whether a callback raises is an oracle parameter.  Observable
snapshots are taken at asyncio yield boundaries: inside `_notify_progress`
the job's progress/stage are stored before the first `await callback`, so
each yield exposes the state right after a notify's store; the assignments
on lines 116, 235–236 and 248–249 of audio.py share their atomic region
with the following notify. -/

/-- Embedding of `AudioGenerationJob` (audio.py lines 16–27). -/
structure Job where
  job_id : String
  status : String := "queued"
  progress : Rat := 0
  stage : String := "queued"
  audio_path : Option String := none
  error : Option String := none
deriving DecidableEq, Repr

/-- Mutable state of an `AudioService` instance (lines 35–40): the job map
and the per-job callback registrations, in registration order. -/
structure AudioState where
  jobs : AList Job := []
  progress_callbacks : AList (List Nat) := []
deriving DecidableEq, Repr

/-- `AudioService.create_job` (lines 42–49), with the fresh uuid passed in
as `job_id`. -/
def create_job (s : AudioState) (job_id : String) : AudioState :=
  { s with jobs := aset s.jobs job_id (Job.mk job_id "queued" 0 "queued" none none) }

/-- `AudioService.get_job` (lines 51–53). -/
def get_job (s : AudioState) (job_id : String) : Option Job := alookup s.jobs job_id

/-- `AudioService.register_progress_callback` (lines 55–62): create the
list when absent, then append. -/
def register_progress_callback (s : AudioState) (job_id : String) (cb : Nat) : AudioState :=
  { s with
    progress_callbacks :=
      aset s.progress_callbacks job_id ((alookup s.progress_callbacks job_id).getD [] ++ [cb]) }

/-- Python `list.remove`: drop the first occurrence. -/
def remove_first : List Nat → Nat → List Nat
  | [], _ => []
  | x :: t, cb => if x = cb then t else x :: remove_first t cb

/-- `AudioService.unregister_progress_callback` (lines 64–71):
`contextlib.suppress(ValueError)` makes removing an absent callback a
no-op. -/
def unregister_progress_callback (s : AudioState) (job_id : String) (cb : Nat) : AudioState :=
  match alookup s.progress_callbacks job_id with
  | none => s
  | some l =>
      { s with progress_callbacks := aset s.progress_callbacks job_id (remove_first l cb) }

/-- The callback loop of `_notify_progress` (lines 84–89): every callback
is invoked with exactly the given values; a raising callback's exception
is caught and logged, and iteration continues either way. -/
def run_callbacks (raises : Nat → Bool) (cbs : List Nat) (progress : Rat) (stage : String)
    (audio_url : Option String) : List (Nat × Rat × String × Option String) :=
  match cbs with
  | [] => []
  | cb :: rest =>
      if raises cb then
        -- exception caught and logged (lines 87–89); the call was made
        (cb, progress, stage, audio_url) :: run_callbacks raises rest progress stage audio_url
      else
        (cb, progress, stage, audio_url) :: run_callbacks raises rest progress stage audio_url

/-- State effect of `_notify_progress` (lines 77–81): store progress and
stage on the job when it still exists. -/
def notify_state (s : AudioState) (job_id : String) (progress : Rat) (stage : String) :
    AudioState :=
  match alookup s.jobs job_id with
  | none => s
  | some j =>
      { s with jobs := aset s.jobs job_id { j with progress := progress, stage := stage } }

/-- Full `AudioService._notify_progress` (lines 73–89): the state effect
plus the list of callback invocations made (callback id and the exact
values passed). -/
def notify_progress (raises : Nat → Bool) (s : AudioState) (job_id : String) (progress : Rat)
    (stage : String) (audio_url : Option String) :
    AudioState × List (Nat × Rat × String × Option String) :=
  let s2 := notify_state s job_id progress stage
  match alookup s2.progress_callbacks job_id with
  | none => (s2, [])
  | some cbs => (s2, run_callbacks raises cbs progress stage audio_url)

/-- `AudioService.cleanup_job` (lines 260–275): delete the job record and
its callback registrations; unknown ids are a logged no-op.  The audio
file unlink is external. -/
def cleanup_job (s : AudioState) (job_id : String) : AudioState :=
  match alookup s.jobs job_id with
  | none => s
  | some _ =>
      { s with jobs := aremove s.jobs job_id,
               progress_callbacks := aremove s.progress_callbacks job_id }

/-- Route `DELETE /audio/{job_id}` (routes.py lines 180–190): 404 on an
unknown job, otherwise clean up and report deletion. -/
def delete_audio_route (s : AudioState) (job_id : String) :
    Except Nat (AudioState × String) :=
  match get_job s job_id with
  | none => Except.error 404
  | some _ => Except.ok (cleanup_job s job_id, "deleted")

/-- Outcomes of the external calls made by `generate_audio`:
the lazy `import torch, torchaudio`, `model_loader.load_model`,
`generate_diffusion_cond` (in the executor), the tensor post-processing
(squeeze / stereo fixup / normalize), and `torchaudio.save`. -/
structure GenEnv where
  import_torch : Except String Unit
  load_model_result : Except String (Nat × Nat)
  generate : Except String Nat
  post_process : Nat → Except String Nat
  save : Except String Unit

/-- Result of a `generate_audio` run: observable state snapshots, the
values passed to `_notify_progress`, the returned path or raised message,
and the final state. -/
structure GenRun where
  states : List AudioState
  notes : List (Rat × String × Option String)
  result : Except String String
  final : AudioState

/-- The except-branch of `generate_audio` (lines 245–251): mark the job
`error`, record the message, notify progress 0.0 / stage "error" and
re-raise. -/
def gen_error_state (s : AudioState) (job_id : String) (e : String) : AudioState :=
  match alookup s.jobs job_id with
  | none => s
  | some j =>
      notify_state
        { s with jobs := aset s.jobs job_id { j with status := "error", error := some e } }
        job_id 0 "error"

/-- Embedding of `AudioService.generate_audio` (audio.py lines 91–251).
The lazy torch import (lines 101–107) and the job lookup (lines 109–113)
raise BEFORE the try block, leaving the job untouched; every failure
inside the try block runs the except-branch. -/
def generate_audio (env : GenEnv) (s : AudioState) (job_id : String) : GenRun :=
  match env.import_torch with
  | Except.error e =>
      { states := [s], notes := [],
        result := Except.error ("PyTorch/torchaudio not installed: " ++ e), final := s }
  | Except.ok _ =>
    match alookup s.jobs job_id with
    | none =>
        { states := [s], notes := [],
          result := Except.error ("Job not found: " ++ job_id), final := s }
    | some j =>
        let s1 : AudioState :=
          { s with jobs := aset s.jobs job_id { j with status := "processing" } }
        let s2 := notify_state s1 job_id (5/100) "loading_model"
        let n1 := ((5:Rat)/100, "loading_model", (none : Option String))
        match env.load_model_result with
        | Except.error e =>
            let sE := gen_error_state s2 job_id e
            { states := [s, s2, sE], notes := [n1, (0, "error", none)],
              result := Except.error e, final := sE }
        | Except.ok _ =>
            let s3 := notify_state s2 job_id (2/10) "preparing"
            let n2 := ((2:Rat)/10, "preparing", (none : Option String))
            let s4 := notify_state s3 job_id (3/10) "generating"
            let n3 := ((3:Rat)/10, "generating", (none : Option String))
            match env.generate with
            | Except.error e =>
                let sE := gen_error_state s4 job_id e
                { states := [s, s2, s3, s4, sE],
                  notes := [n1, n2, n3, (0, "error", none)],
                  result := Except.error e, final := sE }
            | Except.ok out =>
                let s5 := notify_state s4 job_id (8/10) "processing_audio"
                let n4 := ((8:Rat)/10, "processing_audio", (none : Option String))
                match env.post_process out with
                | Except.error e =>
                    let sE := gen_error_state s5 job_id e
                    { states := [s, s2, s3, s4, s5, sE],
                      notes := [n1, n2, n3, n4, (0, "error", none)],
                      result := Except.error e, final := sE }
                | Except.ok _ =>
                    let s6 := notify_state s5 job_id (9/10) "saving"
                    let n5 := ((9:Rat)/10, "saving", (none : Option String))
                    match env.save with
                    | Except.error e =>
                        let sE := gen_error_state s6 job_id e
                        { states := [s, s2, s3, s4, s5, s6, sE],
                          notes := [n1, n2, n3, n4, n5, (0, "error", none)],
                          result := Except.error e, final := sE }
                    | Except.ok _ =>
                        let path := job_id ++ ".wav"
                        let s7 : AudioState :=
                          match alookup s6.jobs job_id with
                          | none => s6
                          | some j2 =>
                              let j3 : Job :=
                                { j2 with audio_path := some path, status := "complete" }
                              { s6 with jobs := aset s6.jobs job_id j3 }
                        let s8 := notify_state s7 job_id 1 "complete"
                        { states := [s, s2, s3, s4, s5, s6, s8],
                          notes := [n1, n2, n3, n4, n5,
                            (1, "complete", some ("/api/audio/" ++ job_id))],
                          result := Except.ok path, final := s8 }

/-- Job snapshots of a run, as seen through the job map. -/
def jobTrace (r : GenRun) (job_id : String) : List Job :=
  r.states.filterMap (fun t => alookup t.jobs job_id)

/-- Allowed single transitions of the job state machine. -/
def status_step (a b : String) : Prop :=
  a = b ∨ (a = "queued" ∧ b = "processing") ∨
    (a = "processing" ∧ (b = "complete" ∨ b = "error"))


theorem run_callbacks_eq (raises : Nat → Bool) (cbs : List Nat) (p : Rat) (st : String)
    (url : Option String) :
    run_callbacks raises cbs p st url = cbs.map (fun c => (c, p, st, url)) := by
  induction cbs with
  | nil => rfl
  | cons cb rest ih =>
      by_cases h : raises cb = true <;> simp [run_callbacks, h, ih]

@[simp] theorem notify_state_callbacks (s : AudioState) (job_id : String) (p : Rat)
    (st : String) :
    (notify_state s job_id p st).progress_callbacks = s.progress_callbacks := by
  unfold notify_state; split <;> rfl

/-- C9: notify fan-out isolation and order — `_notify_progress` invokes
every callback registered for the job, in registration order, with exactly
the given progress/stage/audio_url values; a raising callback's exception
is caught (the call list and returned state do not depend on the raising
oracle, and the function is total, so nothing propagates to the caller);
registration appends to the end of the list, so list order is registration
order. -/
theorem c9_notify_fanout (raises : Nat → Bool) (s : AudioState) (job_id : String)
    (p : Rat) (st : String) (url : Option String) (cb : Nat) :
    (notify_progress raises s job_id p st url).2
      = ((alookup s.progress_callbacks job_id).getD []).map (fun c => (c, p, st, url)) ∧
    alookup (register_progress_callback s job_id cb).progress_callbacks job_id
      = some ((alookup s.progress_callbacks job_id).getD [] ++ [cb]) := by
  constructor
  · unfold notify_progress
    cases hl : alookup s.progress_callbacks job_id with
    | none => simp [hl]
    | some cbs => simp [hl, run_callbacks_eq]
  · unfold register_progress_callback
    exact alookup_aset_self ..

/-- C8: deletion semantics — after `cleanup_job` on an existing job,
`get_job` returns none, `_notify_progress` for that job delivers nothing
to any callback and leaves the state unchanged; the delete route reports
an unknown job id as a 404 not-found rather than crashing. -/
theorem c8_deletion_semantics (s : AudioState) (job_id : String) (j : Job)
    (hj : alookup s.jobs job_id = some j)
    (hnd : (akeys s.jobs).Nodup) (hnc : (akeys s.progress_callbacks).Nodup) :
    get_job (cleanup_job s job_id) job_id = none ∧
    (∀ (raises : Nat → Bool) (p : Rat) (st : String) (url : Option String),
      notify_progress raises (cleanup_job s job_id) job_id p st url
        = (cleanup_job s job_id, [])) ∧
    delete_audio_route s job_id = Except.ok (cleanup_job s job_id, "deleted") ∧
    (∀ (u : AudioState) (jid : String), get_job u jid = none →
      delete_audio_route u jid = Except.error 404) := by
  have hclean : cleanup_job s job_id
      = { s with jobs := aremove s.jobs job_id,
                 progress_callbacks := aremove s.progress_callbacks job_id } := by
    unfold cleanup_job; rw [hj]
  have hgone : alookup (cleanup_job s job_id).jobs job_id = none := by
    rw [hclean]; exact alookup_aremove_self _ _ hnd
  have hcbgone : alookup (cleanup_job s job_id).progress_callbacks job_id = none := by
    rw [hclean]; exact alookup_aremove_self _ _ hnc
  refine ⟨hgone, ?_, ?_, ?_⟩
  · intro raises p st url
    have hns : notify_state (cleanup_job s job_id) job_id p st = cleanup_job s job_id := by
      unfold notify_state; rw [hgone]
    unfold notify_progress
    rw [hns]
    simp only [hcbgone]
  · unfold delete_audio_route get_job; rw [hj]
  · intro u jid hu
    unfold delete_audio_route; rw [hu]

/-- C8 witness: cleanup of the freshly created job "j1" and deletion of an
unknown id. -/
theorem c8_deletion_semantics_witness :
    get_job (cleanup_job (create_job {} "j1") "j1") "j1" = none ∧
    delete_audio_route ({} : AudioState) "nope" = Except.error 404 :=
  ⟨(c8_deletion_semantics (create_job {} "j1") "j1"
      (Job.mk "j1" "queued" 0 "queued" none none) rfl (by decide) (by decide)).1,
   (c8_deletion_semantics (create_job {} "j1") "j1"
      (Job.mk "j1" "queued" 0 "queued" none none) rfl (by decide) (by decide)).2.2.2
     {} "nope" rfl⟩

/-- Environment whose lazy torch import fails; all later calls would
succeed. -/
def envImportFail : GenEnv :=
  { import_torch := Except.error "No module named torch",
    load_model_result := Except.ok (1, 2), generate := Except.ok 5,
    post_process := fun x => Except.ok x, save := Except.ok () }

/-- Audio-service state holding the single fresh job "j1". -/
def audioS0 : AudioState := create_job {} "j1"

/-- C3, counterexample: when the lazy `import torch, torchaudio` raises,
`generate_audio` re-raises BEFORE the try block (audio.py lines 101–107),
so the job record is left with status "queued", with no error message and
no notification — the claimed error terminalization does not happen for
the lazy-import step. -/
theorem c3_error_terminalization_cex :
    (generate_audio envImportFail audioS0 "j1").result
      = Except.error "PyTorch/torchaudio not installed: No module named torch" ∧
    (alookup (generate_audio envImportFail audioS0 "j1").final.jobs "j1").map Job.status
      = some "queued" ∧
    (alookup (generate_audio envImportFail audioS0 "j1").final.jobs "j1").map Job.error
      = some none ∧
    (generate_audio envImportFail audioS0 "j1").notes = [] :=
  ⟨rfl, rfl, rfl, rfl⟩

/-- A job record while processing, after a notify store. -/
def jobProcessing (j : Job) (p : Rat) (st : String) : Job :=
  { j with status := "processing", progress := p, stage := st }

/-- A job record after the except-branch of `generate_audio`. -/
def jobErrored (j : Job) (e : String) : Job :=
  { j with status := "error", progress := 0, stage := "error", error := some e }

/-- A job record after a successful `generate_audio` run. -/
def jobDone (j : Job) (job_id : String) : Job :=
  { j with status := "complete", progress := 1, stage := "complete",
           audio_path := some (job_id ++ ".wav") }

theorem jobTrace_import_fail (env : GenEnv) (s : AudioState) (job_id : String) (j : Job)
    (e : String) (himp : env.import_torch = Except.error e)
    (hj : alookup s.jobs job_id = some j) :
    jobTrace (generate_audio env s job_id) job_id = [j] ∧
    alookup (generate_audio env s job_id).final.jobs job_id = some j ∧
    (generate_audio env s job_id).result
      = Except.error ("PyTorch/torchaudio not installed: " ++ e) ∧
    (generate_audio env s job_id).notes = [] := by
  simp [generate_audio, himp, hj, jobTrace, List.filterMap]

theorem jobTrace_load_fail (env : GenEnv) (s : AudioState) (job_id : String) (j : Job)
    (e : String) (himp : env.import_torch = Except.ok ())
    (hj : alookup s.jobs job_id = some j)
    (hload : env.load_model_result = Except.error e) :
    jobTrace (generate_audio env s job_id) job_id
      = [j, jobProcessing j (5/100) "loading_model", jobErrored j e] ∧
    alookup (generate_audio env s job_id).final.jobs job_id = some (jobErrored j e) ∧
    (generate_audio env s job_id).result = Except.error e ∧
    (generate_audio env s job_id).notes
      = [(5/100, "loading_model", none), (0, "error", none)] := by
  simp [generate_audio, himp, hj, hload, jobTrace, notify_state, gen_error_state,
    jobProcessing, jobErrored, alookup_aset_self, List.filterMap]

theorem jobTrace_gen_fail (env : GenEnv) (s : AudioState) (job_id : String) (j : Job)
    (pr : Nat × Nat) (e : String) (himp : env.import_torch = Except.ok ())
    (hj : alookup s.jobs job_id = some j)
    (hload : env.load_model_result = Except.ok pr)
    (hgen : env.generate = Except.error e) :
    jobTrace (generate_audio env s job_id) job_id
      = [j, jobProcessing j (5/100) "loading_model", jobProcessing j (2/10) "preparing",
         jobProcessing j (3/10) "generating", jobErrored j e] ∧
    alookup (generate_audio env s job_id).final.jobs job_id = some (jobErrored j e) ∧
    (generate_audio env s job_id).result = Except.error e ∧
    (generate_audio env s job_id).notes
      = [(5/100, "loading_model", none), (2/10, "preparing", none),
         (3/10, "generating", none), (0, "error", none)] := by
  simp [generate_audio, himp, hj, hload, hgen, jobTrace, notify_state, gen_error_state,
    jobProcessing, jobErrored, alookup_aset_self, List.filterMap]

theorem jobTrace_post_fail (env : GenEnv) (s : AudioState) (job_id : String) (j : Job)
    (pr : Nat × Nat) (out : Nat) (e : String) (himp : env.import_torch = Except.ok ())
    (hj : alookup s.jobs job_id = some j)
    (hload : env.load_model_result = Except.ok pr)
    (hgen : env.generate = Except.ok out)
    (hpost : env.post_process out = Except.error e) :
    jobTrace (generate_audio env s job_id) job_id
      = [j, jobProcessing j (5/100) "loading_model", jobProcessing j (2/10) "preparing",
         jobProcessing j (3/10) "generating", jobProcessing j (8/10) "processing_audio",
         jobErrored j e] ∧
    alookup (generate_audio env s job_id).final.jobs job_id = some (jobErrored j e) ∧
    (generate_audio env s job_id).result = Except.error e ∧
    (generate_audio env s job_id).notes
      = [(5/100, "loading_model", none), (2/10, "preparing", none),
         (3/10, "generating", none), (8/10, "processing_audio", none),
         (0, "error", none)] := by
  simp [generate_audio, himp, hj, hload, hgen, hpost, jobTrace, notify_state,
    gen_error_state, jobProcessing, jobErrored, alookup_aset_self, List.filterMap]

theorem jobTrace_save_fail (env : GenEnv) (s : AudioState) (job_id : String) (j : Job)
    (pr : Nat × Nat) (out out2 : Nat) (e : String) (himp : env.import_torch = Except.ok ())
    (hj : alookup s.jobs job_id = some j)
    (hload : env.load_model_result = Except.ok pr)
    (hgen : env.generate = Except.ok out)
    (hpost : env.post_process out = Except.ok out2)
    (hsave : env.save = Except.error e) :
    jobTrace (generate_audio env s job_id) job_id
      = [j, jobProcessing j (5/100) "loading_model", jobProcessing j (2/10) "preparing",
         jobProcessing j (3/10) "generating", jobProcessing j (8/10) "processing_audio",
         jobProcessing j (9/10) "saving", jobErrored j e] ∧
    alookup (generate_audio env s job_id).final.jobs job_id = some (jobErrored j e) ∧
    (generate_audio env s job_id).result = Except.error e ∧
    (generate_audio env s job_id).notes
      = [(5/100, "loading_model", none), (2/10, "preparing", none),
         (3/10, "generating", none), (8/10, "processing_audio", none),
         (9/10, "saving", none), (0, "error", none)] := by
  simp [generate_audio, himp, hj, hload, hgen, hpost, hsave, jobTrace, notify_state,
    gen_error_state, jobProcessing, jobErrored, alookup_aset_self, List.filterMap]

theorem jobTrace_success (env : GenEnv) (s : AudioState) (job_id : String) (j : Job)
    (pr : Nat × Nat) (out out2 : Nat) (himp : env.import_torch = Except.ok ())
    (hj : alookup s.jobs job_id = some j)
    (hload : env.load_model_result = Except.ok pr)
    (hgen : env.generate = Except.ok out)
    (hpost : env.post_process out = Except.ok out2)
    (hsave : env.save = Except.ok ()) :
    jobTrace (generate_audio env s job_id) job_id
      = [j, jobProcessing j (5/100) "loading_model", jobProcessing j (2/10) "preparing",
         jobProcessing j (3/10) "generating", jobProcessing j (8/10) "processing_audio",
         jobProcessing j (9/10) "saving", jobDone j job_id] ∧
    alookup (generate_audio env s job_id).final.jobs job_id = some (jobDone j job_id) ∧
    (generate_audio env s job_id).result = Except.ok (job_id ++ ".wav") ∧
    (generate_audio env s job_id).notes
      = [(5/100, "loading_model", none), (2/10, "preparing", none),
         (3/10, "generating", none), (8/10, "processing_audio", none),
         (9/10, "saving", none), (1, "complete", some ("/api/audio/" ++ job_id))] := by
  simp [generate_audio, himp, hj, hload, hgen, hpost, hsave, jobTrace, notify_state,
    jobProcessing, jobDone, alookup_aset_self, List.filterMap]


/-- Error terminalization of one run: the job record ends in status
"error" carrying the raised message, no result path is set, and the last
notification is progress 0.0 / stage "error". -/
def ErrorTerminalization (r : GenRun) (job_id msg : String) : Prop :=
  (alookup r.final.jobs job_id).map Job.status = some "error" ∧
  (alookup r.final.jobs job_id).map Job.stage = some "error" ∧
  (alookup r.final.jobs job_id).map Job.progress = some 0 ∧
  (alookup r.final.jobs job_id).map Job.error = some (some msg) ∧
  (alookup r.final.jobs job_id).map Job.audio_path = some none ∧
  r.notes.getLast? = some (0, "error", none)

/-- C3 (amended): once the lazy torch import and the job lookup have
succeeded, every exception raised at any later step of `generate_audio`
(model loading, generation, post-processing, saving) terminalizes the job:
the stored record ends with status "error", stage "error", progress reset
to 0.0, the exception's message recorded (non-empty whenever the message
is), no audio_path set, and a final progress 0.0 / stage "error"
notification.  The import-failure path raises before the try block and is
excluded by the counterexample. -/
theorem c3_error_terminalization_amended (env : GenEnv) (s : AudioState) (job_id : String)
    (j : Job) (msg : String)
    (himp : env.import_torch = Except.ok ())
    (hj : alookup s.jobs job_id = some j) (hpath : j.audio_path = none)
    (hres : (generate_audio env s job_id).result = Except.error msg) :
    ErrorTerminalization (generate_audio env s job_id) job_id msg := by
  unfold ErrorTerminalization
  cases hload : env.load_model_result with
  | error e =>
      obtain ⟨_, hfin, hres2, hnotes⟩ := jobTrace_load_fail env s job_id j e himp hj hload
      rw [hres2] at hres
      injection hres with he
      subst he
      refine ⟨?_, ?_, ?_, ?_, ?_, ?_⟩ <;> simp [hfin, hnotes, jobErrored, hpath]
  | ok pr =>
    cases hgen : env.generate with
    | error e =>
        obtain ⟨_, hfin, hres2, hnotes⟩ :=
          jobTrace_gen_fail env s job_id j pr e himp hj hload hgen
        rw [hres2] at hres
        injection hres with he
        subst he
        refine ⟨?_, ?_, ?_, ?_, ?_, ?_⟩ <;> simp [hfin, hnotes, jobErrored, hpath]
    | ok out =>
      cases hpost : env.post_process out with
      | error e =>
          obtain ⟨_, hfin, hres2, hnotes⟩ :=
            jobTrace_post_fail env s job_id j pr out e himp hj hload hgen hpost
          rw [hres2] at hres
          injection hres with he
          subst he
          refine ⟨?_, ?_, ?_, ?_, ?_, ?_⟩ <;> simp [hfin, hnotes, jobErrored, hpath]
      | ok out2 =>
        cases hsave : env.save with
        | error e =>
            obtain ⟨_, hfin, hres2, hnotes⟩ :=
              jobTrace_save_fail env s job_id j pr out out2 e himp hj hload hgen hpost hsave
            rw [hres2] at hres
            injection hres with he
            subst he
            refine ⟨?_, ?_, ?_, ?_, ?_, ?_⟩ <;> simp [hfin, hnotes, jobErrored, hpath]
        | ok u =>
            obtain ⟨_, _, hres2, _⟩ :=
              jobTrace_success env s job_id j pr out out2 himp hj hload hgen hpost
                (by cases u; exact hsave)
            rw [hres2] at hres
            exact Except.noConfusion hres

/-- All-success external environment for `generate_audio`. -/
def genOkEnv : GenEnv :=
  { import_torch := Except.ok (), load_model_result := Except.ok (1, 2),
    generate := Except.ok 5, post_process := fun x => Except.ok x, save := Except.ok () }

/-- Environment whose model-loading call raises. -/
def envLoadFail : GenEnv := { genOkEnv with load_model_result := Except.error "load failed" }

/-- C3 witness: the amended theorem applied to the fresh job "j1" with a
failing model load. -/
theorem c3_error_terminalization_amended_witness :
    ErrorTerminalization (generate_audio envLoadFail audioS0 "j1") "j1" "load failed" := by
  have hj : alookup audioS0.jobs "j1"
      = some (Job.mk "j1" "queued" 0 "queued" none none) := by decide
  have hres : (generate_audio envLoadFail audioS0 "j1").result
      = Except.error "load failed" := by
    have h := (jobTrace_load_fail envLoadFail audioS0 "j1"
      (Job.mk "j1" "queued" 0 "queued" none none) "load failed" rfl (by decide) rfl).2.2.1
    exact h
  exact c3_error_terminalization_amended envLoadFail audioS0 "j1"
    (Job.mk "j1" "queued" 0 "queued" none none) "load failed" rfl hj rfl hres

/-- Progress behaviour of one run: stored progress is non-decreasing at
every observable point as long as the job is not in "error"; stored
progress equals exactly 1.0 iff the status is "complete"; the progress
values delivered to observers are non-decreasing up to the terminal
"error" notification. -/
def ProgressSpec (r : GenRun) (job_id : String) : Prop :=
  List.Chain' (fun j1 j2 => j2.status ≠ "error" → j1.progress ≤ j2.progress)
    (jobTrace r job_id) ∧
  (∀ j2 ∈ jobTrace r job_id, j2.progress = 1 ↔ j2.status = "complete") ∧
  List.Chain' (fun a b : Rat × String × Option String => a.1 ≤ b.1)
    (r.notes.takeWhile (fun nb => nb.2.1 != "error"))


/-- C5: job progress monotonicity — at every observable point of a
`generate_audio` run the stored progress is non-decreasing while the job
is not in "error", stored progress equals exactly 1.0 iff the status is
"complete", and the progress fractions delivered to observers increase up
to the terminal error notification (which resets to 0.0 only once the
status is "error"). -/
theorem c5_progress_monotone (env : GenEnv) (s : AudioState) (job_id : String) (j : Job)
    (hj : alookup s.jobs job_id = some j)
    (hq : j.status = "queued") (hp : j.progress = 0) :
    ProgressSpec (generate_audio env s job_id) job_id := by
  unfold ProgressSpec
  cases himp : env.import_torch with
  | error e =>
      obtain ⟨htr, _, _, hnotes⟩ := jobTrace_import_fail env s job_id j e himp hj
      rw [htr, hnotes]
      refine ⟨by simp, ?_, by simp⟩
      intro j2 hmem
      rw [List.mem_singleton] at hmem
      subst hmem
      rw [hp, hq]
      norm_num <;> decide
  | ok u0 =>
    cases u0
    cases hload : env.load_model_result with
    | error e =>
        obtain ⟨htr, _, _, hnotes⟩ := jobTrace_load_fail env s job_id j e himp hj hload
        rw [htr, hnotes]
        refine ⟨?_, ?_, by simp [List.takeWhile]; try norm_num [List.chain'_cons, List.chain'_singleton]⟩
        · simp only [List.chain'_cons, List.chain'_singleton, and_true, jobProcessing,
            jobErrored]
          rw [hp]
          norm_num
        · intro j2 hmem
          simp only [List.mem_cons, List.not_mem_nil, or_false] at hmem
          rcases hmem with rfl | rfl | rfl
          · rw [hp, hq]; norm_num <;> decide
          · norm_num [jobProcessing] <;> decide
          · norm_num [jobErrored] <;> decide
    | ok pr =>
      cases hgen : env.generate with
      | error e =>
          obtain ⟨htr, _, _, hnotes⟩ := jobTrace_gen_fail env s job_id j pr e himp hj hload hgen
          rw [htr, hnotes]
          refine ⟨?_, ?_, by simp [List.takeWhile]; try norm_num [List.chain'_cons, List.chain'_singleton]⟩
          · simp only [List.chain'_cons, List.chain'_singleton, and_true, jobProcessing,
              jobErrored]
            rw [hp]
            norm_num
          · intro j2 hmem
            simp only [List.mem_cons, List.not_mem_nil, or_false] at hmem
            rcases hmem with rfl | rfl | rfl | rfl | rfl
            · rw [hp, hq]; norm_num <;> decide
            · norm_num [jobProcessing] <;> decide
            · norm_num [jobProcessing] <;> decide
            · norm_num [jobProcessing] <;> decide
            · norm_num [jobErrored] <;> decide
      | ok out =>
        cases hpost : env.post_process out with
        | error e =>
            obtain ⟨htr, _, _, hnotes⟩ :=
              jobTrace_post_fail env s job_id j pr out e himp hj hload hgen hpost
            rw [htr, hnotes]
            refine ⟨?_, ?_, by simp [List.takeWhile]; try norm_num [List.chain'_cons, List.chain'_singleton]⟩
            · simp only [List.chain'_cons, List.chain'_singleton, and_true, jobProcessing,
                jobErrored]
              rw [hp]
              norm_num
            · intro j2 hmem
              simp only [List.mem_cons, List.not_mem_nil, or_false] at hmem
              rcases hmem with rfl | rfl | rfl | rfl | rfl | rfl
              · rw [hp, hq]; norm_num <;> decide
              · norm_num [jobProcessing] <;> decide
              · norm_num [jobProcessing] <;> decide
              · norm_num [jobProcessing] <;> decide
              · norm_num [jobProcessing] <;> decide
              · norm_num [jobErrored] <;> decide
        | ok out2 =>
          cases hsave : env.save with
          | error e =>
              obtain ⟨htr, _, _, hnotes⟩ :=
                jobTrace_save_fail env s job_id j pr out out2 e himp hj hload hgen hpost hsave
              rw [htr, hnotes]
              refine ⟨?_, ?_, by simp [List.takeWhile]; try norm_num [List.chain'_cons, List.chain'_singleton]⟩
              · simp only [List.chain'_cons, List.chain'_singleton, and_true, jobProcessing,
                  jobErrored]
                rw [hp]
                norm_num
              · intro j2 hmem
                simp only [List.mem_cons, List.not_mem_nil, or_false] at hmem
                rcases hmem with rfl | rfl | rfl | rfl | rfl | rfl | rfl
                · rw [hp, hq]; norm_num <;> decide
                · norm_num [jobProcessing] <;> decide
                · norm_num [jobProcessing] <;> decide
                · norm_num [jobProcessing] <;> decide
                · norm_num [jobProcessing] <;> decide
                · norm_num [jobProcessing] <;> decide
                · norm_num [jobErrored] <;> decide
          | ok u1 =>
              cases u1
              obtain ⟨htr, _, _, hnotes⟩ :=
                jobTrace_success env s job_id j pr out out2 himp hj hload hgen hpost hsave
              rw [htr, hnotes]
              refine ⟨?_, ?_, by simp [List.takeWhile]; try norm_num [List.chain'_cons, List.chain'_singleton]⟩
              · simp only [List.chain'_cons, List.chain'_singleton, and_true, jobProcessing,
                  jobDone]
                rw [hp]
                norm_num
              · intro j2 hmem
                simp only [List.mem_cons, List.not_mem_nil, or_false] at hmem
                rcases hmem with rfl | rfl | rfl | rfl | rfl | rfl | rfl
                · rw [hp, hq]; norm_num <;> decide
                · norm_num [jobProcessing] <;> decide
                · norm_num [jobProcessing] <;> decide
                · norm_num [jobProcessing] <;> decide
                · norm_num [jobProcessing] <;> decide
                · norm_num [jobProcessing] <;> decide
                · norm_num [jobDone] <;> decide

/-- C5 witness: the all-success run on the fresh job "j1". -/
theorem c5_progress_monotone_witness :
    ProgressSpec (generate_audio genOkEnv audioS0 "j1") "j1" := by
  have hj : alookup audioS0.jobs "j1"
      = some (Job.mk "j1" "queued" 0 "queued" none none) := by decide
  exact c5_progress_monotone genOkEnv audioS0 "j1"
    (Job.mk "j1" "queued" 0 "queued" none none) hj rfl rfl


/-- Status trajectory of one run: transitions only along
queued -> processing -> {complete, error}, and every observed status is
one of the four legal values. -/
def StateMachineSpec (r : GenRun) (job_id : String) : Prop :=
  List.Chain' (fun j1 j2 => status_step j1.status j2.status) (jobTrace r job_id) ∧
  ∀ jt ∈ jobTrace r job_id,
    jt.status = "queued" ∨ jt.status = "processing" ∨ jt.status = "complete" ∨
      jt.status = "error"

/-- No other service operation changes a job's status: notifications only
touch progress/stage, callback (un)registration does not touch the job
map, job creation installs a fresh "queued" record, and cleanup only
removes the requested job. -/
def StatusMutationSpec : Prop :=
  (∀ (u : AudioState) (jid : String) (p : Rat) (st : String) (jid2 : String),
    Option.map Job.status (alookup (notify_state u jid p st).jobs jid2)
      = Option.map Job.status (alookup u.jobs jid2)) ∧
  (∀ (u : AudioState) (jid : String) (cb : Nat),
    (register_progress_callback u jid cb).jobs = u.jobs ∧
    (unregister_progress_callback u jid cb).jobs = u.jobs) ∧
  (∀ (u : AudioState) (jid : String),
    alookup (create_job u jid).jobs jid
      = some (Job.mk jid "queued" 0 "queued" none none)) ∧
  (∀ (u : AudioState) (jid jid2 : String), jid ≠ jid2 →
    alookup (cleanup_job u jid).jobs jid2 = alookup u.jobs jid2)

theorem statusMutationSpec_holds : StatusMutationSpec := by
  refine ⟨?_, ?_, ?_, ?_⟩
  · intro u jid p st jid2
    unfold notify_state
    cases hl : alookup u.jobs jid with
    | none => rfl
    | some j0 =>
        by_cases h2 : jid = jid2
        · subst h2
          rw [alookup_aset_self, hl]
          rfl
        · rw [alookup_aset_ne _ _ _ _ h2]
  · intro u jid cb
    constructor
    · rfl
    · unfold unregister_progress_callback
      cases alookup u.progress_callbacks jid <;> rfl
  · intro u jid
    unfold create_job
    exact alookup_aset_self ..
  · intro u jid jid2 hne
    unfold cleanup_job
    cases alookup u.jobs jid with
    | none => rfl
    | some j0 => exact alookup_aremove_ne _ _ _ hne

/-- C6: job state machine — within a `generate_audio` run the status only
moves along queued -> processing -> {complete, error}, never skipping
"processing" and never leaving a terminal state; and no other operation of
the service mutates a job's status (deletion only removes the record). -/
theorem c6_job_state_machine (env : GenEnv) (s : AudioState) (job_id : String) (j : Job)
    (hj : alookup s.jobs job_id = some j) (hq : j.status = "queued") :
    StateMachineSpec (generate_audio env s job_id) job_id ∧ StatusMutationSpec := by
  refine ⟨?_, statusMutationSpec_holds⟩
  unfold StateMachineSpec
  cases himp : env.import_torch with
  | error e =>
      obtain ⟨htr, _, _, _⟩ := jobTrace_import_fail env s job_id j e himp hj
      rw [htr]
      refine ⟨by simp, ?_⟩
      intro jt hmem
      rw [List.mem_singleton] at hmem
      subst hmem
      exact Or.inl hq
  | ok u0 =>
    cases u0
    cases hload : env.load_model_result with
    | error e =>
        obtain ⟨htr, _, _, _⟩ := jobTrace_load_fail env s job_id j e himp hj hload
        rw [htr]
        constructor
        · simp only [List.chain'_cons, List.chain'_singleton, and_true]
          refine ⟨?_, ?_⟩ <;> simp [status_step, jobProcessing, jobErrored, hq]
        · intro jt hmem
          simp only [List.mem_cons, List.not_mem_nil, or_false] at hmem
          rcases hmem with rfl | rfl | rfl
          · exact Or.inl hq
          · simp [jobProcessing]
          · simp [jobErrored]
    | ok pr =>
      cases hgen : env.generate with
      | error e =>
          obtain ⟨htr, _, _, _⟩ := jobTrace_gen_fail env s job_id j pr e himp hj hload hgen
          rw [htr]
          constructor
          · simp only [List.chain'_cons, List.chain'_singleton, and_true]
            refine ⟨?_, ?_, ?_, ?_⟩ <;> simp [status_step, jobProcessing, jobErrored, hq]
          · intro jt hmem
            simp only [List.mem_cons, List.not_mem_nil, or_false] at hmem
            rcases hmem with rfl | rfl | rfl | rfl | rfl
            · exact Or.inl hq
            · simp [jobProcessing]
            · simp [jobProcessing]
            · simp [jobProcessing]
            · simp [jobErrored]
      | ok out =>
        cases hpost : env.post_process out with
        | error e =>
            obtain ⟨htr, _, _, _⟩ :=
              jobTrace_post_fail env s job_id j pr out e himp hj hload hgen hpost
            rw [htr]
            constructor
            · simp only [List.chain'_cons, List.chain'_singleton, and_true]
              refine ⟨?_, ?_, ?_, ?_, ?_⟩ <;>
                simp [status_step, jobProcessing, jobErrored, hq]
            · intro jt hmem
              simp only [List.mem_cons, List.not_mem_nil, or_false] at hmem
              rcases hmem with rfl | rfl | rfl | rfl | rfl | rfl
              · exact Or.inl hq
              · simp [jobProcessing]
              · simp [jobProcessing]
              · simp [jobProcessing]
              · simp [jobProcessing]
              · simp [jobErrored]
        | ok out2 =>
          cases hsave : env.save with
          | error e =>
              obtain ⟨htr, _, _, _⟩ :=
                jobTrace_save_fail env s job_id j pr out out2 e himp hj hload hgen hpost hsave
              rw [htr]
              constructor
              · simp only [List.chain'_cons, List.chain'_singleton, and_true]
                refine ⟨?_, ?_, ?_, ?_, ?_, ?_⟩ <;>
                  simp [status_step, jobProcessing, jobErrored, hq]
              · intro jt hmem
                simp only [List.mem_cons, List.not_mem_nil, or_false] at hmem
                rcases hmem with rfl | rfl | rfl | rfl | rfl | rfl | rfl
                · exact Or.inl hq
                · simp [jobProcessing]
                · simp [jobProcessing]
                · simp [jobProcessing]
                · simp [jobProcessing]
                · simp [jobProcessing]
                · simp [jobErrored]
          | ok u1 =>
              cases u1
              obtain ⟨htr, _, _, _⟩ :=
                jobTrace_success env s job_id j pr out out2 himp hj hload hgen hpost hsave
              rw [htr]
              constructor
              · simp only [List.chain'_cons, List.chain'_singleton, and_true]
                refine ⟨?_, ?_, ?_, ?_, ?_, ?_⟩ <;>
                  simp [status_step, jobProcessing, jobDone, hq]
              · intro jt hmem
                simp only [List.mem_cons, List.not_mem_nil, or_false] at hmem
                rcases hmem with rfl | rfl | rfl | rfl | rfl | rfl | rfl
                · exact Or.inl hq
                · simp [jobProcessing]
                · simp [jobProcessing]
                · simp [jobProcessing]
                · simp [jobProcessing]
                · simp [jobProcessing]
                · simp [jobDone]

/-- C6 witness: the all-success run on the fresh job "j1". -/
theorem c6_job_state_machine_witness :
    StateMachineSpec (generate_audio genOkEnv audioS0 "j1") "j1" ∧ StatusMutationSpec := by
  have hj : alookup audioS0.jobs "j1"
      = some (Job.mk "j1" "queued" 0 "queued" none none) := by decide
  exact c6_job_state_machine genOkEnv audioS0 "j1"
    (Job.mk "j1" "queued" 0 "queued" none none) hj rfl


end CCBell
